import Mathlib

/-!
Verification of the mcp-core runtime (Rust) against its specification.

The Rust sources under `src/mcp-core/src/` are shallowly embedded: each Lean
definition below carries a comment naming the Rust item it translates.
JSON values are modelled by an inductive `Json`; `serde` derived
(de)serializers are modelled field-by-field following the struct attributes
(`deny_unknown_fields`, struct-level `default`, field renames); the stateful
protocol dispatcher (`protocol.rs`) is modelled by explicit state passing.
-/

namespace Mcp

/-- Model of `serde_json::Value`. Numbers are modelled as integers, which covers
every numeric field the embedded code inspects (`u64` ids, `i32` error codes);
objects are field lists in wire order. -/
inductive Json where
  | null : Json
  | bool (b : Bool) : Json
  | num (n : Int) : Json
  | str (s : String) : Json
  | arr (elems : List Json) : Json
  | obj (fields : List (String × Json)) : Json
  deriving Repr

/-- The keys of a JSON object field list, in order. -/
def jsonKeys (fields : List (String × Json)) : List String :=
  fields.map (fun kv => kv.1)

/-- First binding of key `k` in a field list (serde_json `Map::get` on parsed
objects, whose keys are unique). -/
def lookupField (fields : List (String × Json)) (k : String) : Option Json :=
  (fields.find? (fun kv => kv.1 = k)).map (fun kv => kv.2)

/-- Deserializing a `u64` from a JSON value: a non-negative integer below 2^64. -/
def asU64 : Json → Option Nat
  | .num n => if 0 ≤ n ∧ n < 2 ^ 64 then some n.toNat else none
  | _ => none

/-- Deserializing an `i32` from a JSON value. -/
def asI32 : Json → Option Int
  | .num n => if -(2 ^ 31) ≤ n ∧ n < 2 ^ 31 then some n else none
  | _ => none

/-- Deserializing a `String` from a JSON value. -/
def asString : Json → Option String
  | .str s => some s
  | _ => none

/-- Deserializing an `Option<serde_json::Value>` field value: JSON `null`
becomes `None`, anything else `Some`. -/
def asOptionValue : Json → Option (Option Json)
  | .null => some none
  | v => some (some v)

/-- Deserializing an `Option<String>` field value. -/
def asOptionString : Json → Option (Option String)
  | .null => some none
  | .str s => some (some s)
  | _ => none

/-- Deserializing an `Option<bool>` field value. -/
def asOptionBool : Json → Option (Option Bool)
  | .null => some none
  | .bool b => some (some b)
  | _ => none

/-- Model of the field-visiting loop of a serde derived struct deserializer.
`parsers` maps a known field name to its value-validity check; `strict` is
`true` exactly when the struct carries `#[serde(deny_unknown_fields)]`.
The visitor walks the object fields in wire order; a duplicate known field or
an invalid value is an error; an unknown field is an error iff `strict`,
otherwise it is skipped. On success it returns the known fields in wire
order. -/
def serdeFieldsGo (parsers : String → Option (Json → Bool)) (strict : Bool)
    (seen : List String) (acc : List (String × Json)) :
    List (String × Json) → Option (List (String × Json))
  | [] => some acc.reverse
  | kv :: rest =>
    match parsers kv.1 with
    | some check =>
      if kv.1 ∈ seen then none
      else if check kv.2 then serdeFieldsGo parsers strict (kv.1 :: seen) (kv :: acc) rest
      else none
    | none => if strict then none else serdeFieldsGo parsers strict seen acc rest

/-- Entry point of the struct-deserializer field loop (empty seen-set). -/
def serdeFields (parsers : String → Option (Json → Bool)) (strict : Bool)
    (fields : List (String × Json)) : Option (List (String × Json)) :=
  serdeFieldsGo parsers strict [] [] fields

/-- Reading one struct field from the collected fields: an absent field takes
the serde default `d`, a present one is deserialized by `f`. -/
def fieldOr {α : Type} (fields : List (String × Json)) (k : String) (d : α)
    (f : Json → Option α) : Option α :=
  match lookupField fields k with
  | none => some d
  | some v => f v

/-- Rust `transport/mod.rs`: `JsonRpcError { code: i32, message: String, data: Option<Value> }`. -/
structure JsonRpcError where
  code : Int
  message : String
  data : Option Json
  deriving Repr

/-- Rust `transport/mod.rs`: `JsonRpcRequest { id: u64, method, params, jsonrpc }`. -/
structure JsonRpcRequest where
  id : Nat
  method : String
  params : Option Json
  jsonrpc : String
  deriving Repr

/-- Rust `transport/mod.rs`: `JsonRpcResponse { id, result, error, jsonrpc }`. -/
structure JsonRpcResponse where
  id : Nat
  result : Option Json
  error : Option JsonRpcError
  jsonrpc : String
  deriving Repr

/-- Rust `transport/mod.rs`: `JsonRpcNotification { method, params, jsonrpc }`. -/
structure JsonRpcNotification where
  method : String
  params : Option Json
  jsonrpc : String
  deriving Repr

/-- Rust `JsonRpcVersion::default()`: the canonical version string. -/
def jsonRpcVersionDefault : String := "2.0"

/-- Rust `transport/mod.rs`: the untagged wire envelope, variants in declaration
order `Response`, `Request`, `Notification`. -/
inductive JsonRpcMessage where
  | response (r : JsonRpcResponse)
  | request (r : JsonRpcRequest)
  | notification (n : JsonRpcNotification)
  deriving Repr

/-- Known fields and value checks of `JsonRpcError` (lenient: no
`deny_unknown_fields`; struct-level `#[serde(default)]`). -/
def errorFieldCheck : String → Option (Json → Bool)
  | "code" => some (fun v => (asI32 v).isSome)
  | "message" => some (fun v => (asString v).isSome)
  | "data" => some (fun _ => true)
  | _ => none

/-- Deserializer of `JsonRpcError` (derived; lenient, all fields defaulted). -/
def deserializeJsonRpcError (j : Json) : Option JsonRpcError :=
  match j with
  | .obj fields => do
    let valid ← serdeFields errorFieldCheck false fields
    let code ← fieldOr valid "code" 0 asI32
    let message ← fieldOr valid "message" "" asString
    let data ← fieldOr valid "data" none asOptionValue
    pure { code, message, data }
  | _ => none

/-- Deserializing an `Option<JsonRpcError>` field value. -/
def asOptionError (j : Json) : Option (Option JsonRpcError) :=
  match j with
  | .null => some none
  | v => (deserializeJsonRpcError v).map some

/-- Known fields of `JsonRpcRequest` (`deny_unknown_fields`, NO struct-level
`#[serde(default)]`: `id`, `method` and `jsonrpc` are required). -/
def requestFieldCheck : String → Option (Json → Bool)
  | "id" => some (fun v => (asU64 v).isSome)
  | "method" => some (fun v => (asString v).isSome)
  | "params" => some (fun _ => true)
  | "jsonrpc" => some (fun v => (asString v).isSome)
  | _ => none

/-- Deserializer of `JsonRpcRequest` (derived; strict, no struct default). -/
def deserializeJsonRpcRequest (j : Json) : Option JsonRpcRequest :=
  match j with
  | .obj fields => do
    let valid ← serdeFields requestFieldCheck true fields
    let id ← (lookupField valid "id").bind asU64
    let method ← (lookupField valid "method").bind asString
    let jsonrpc ← (lookupField valid "jsonrpc").bind asString
    let params ← fieldOr valid "params" none asOptionValue
    pure { id, method, params, jsonrpc }
  | _ => none

/-- Known fields of `JsonRpcResponse` (`deny_unknown_fields` and struct-level
`#[serde(default)]`: every field may be absent). -/
def responseFieldCheck : String → Option (Json → Bool)
  | "id" => some (fun v => (asU64 v).isSome)
  | "result" => some (fun _ => true)
  | "error" => some (fun v => (asOptionError v).isSome)
  | "jsonrpc" => some (fun v => (asString v).isSome)
  | _ => none

/-- Deserializer of `JsonRpcResponse` (derived; strict, struct default). -/
def deserializeJsonRpcResponse (j : Json) : Option JsonRpcResponse :=
  match j with
  | .obj fields => do
    let valid ← serdeFields responseFieldCheck true fields
    let id ← fieldOr valid "id" 0 asU64
    let result ← fieldOr valid "result" none asOptionValue
    let error ← fieldOr valid "error" none asOptionError
    let jsonrpc ← fieldOr valid "jsonrpc" jsonRpcVersionDefault asString
    pure { id, result, error, jsonrpc }
  | _ => none

/-- Known fields of `JsonRpcNotification` (`deny_unknown_fields` and
struct-level `#[serde(default)]`). -/
def notificationFieldCheck : String → Option (Json → Bool)
  | "method" => some (fun v => (asString v).isSome)
  | "params" => some (fun _ => true)
  | "jsonrpc" => some (fun v => (asString v).isSome)
  | _ => none

/-- Deserializer of `JsonRpcNotification` (derived; strict, struct default). -/
def deserializeJsonRpcNotification (j : Json) : Option JsonRpcNotification :=
  match j with
  | .obj fields => do
    let valid ← serdeFields notificationFieldCheck true fields
    let method ← fieldOr valid "method" "" asString
    let params ← fieldOr valid "params" none asOptionValue
    let jsonrpc ← fieldOr valid "jsonrpc" jsonRpcVersionDefault asString
    pure { method, params, jsonrpc }
  | _ => none

/-- Deserializer of the untagged `JsonRpcMessage` enum: serde tries the
variants in declaration order (`Response`, then `Request`, then
`Notification`) and keeps the first success. -/
def deserializeJsonRpcMessage (j : Json) : Option JsonRpcMessage :=
  match deserializeJsonRpcResponse j with
  | some r => some (.response r)
  | none =>
    match deserializeJsonRpcRequest j with
    | some r => some (.request r)
    | none => (deserializeJsonRpcNotification j).map .notification

/-- Rust `client.rs`: `enum SecureValue { Static(String), Env(String) }`. -/
inductive SecureValue where
  | static (value : String)
  | env (envKey : String)
  deriving Repr

/-- The per-entry replacement step of `apply_secure_replacements` at an object
entry `(k, v)`: when `v` is a string and `k` is configured, the string is
replaced by the static string or by the value of the named environment
variable (`env::var`, falling back to the original string when the variable is
unset); in every other case the walk recurses, so the caller passes the
recursive result as `recursed`. -/
def replaceFieldValue (procEnv : String → Option String)
    (secureValues : String → Option SecureValue) (k : String) (v recursed : Json) : Json :=
  match v, secureValues k with
  | .str _, some (.static value) => .str value
  | .str s, some (.env envKey) => .str ((procEnv envKey).getD s)
  | _, _ => recursed

/-- Rust `client.rs`: `apply_secure_replacements(value, secure_values)`.
`procEnv` models the process environment read by `std::env::var` at
substitution time; `secureValues` models `HashMap::get` on the configured
secure-value map. Objects map each entry through `replaceFieldValue`, arrays
recurse elementwise, and every other value is returned unchanged. -/
def applySecureReplacements (procEnv : String → Option String)
    (secureValues : String → Option SecureValue) : Json → Json
  | .obj fields => .obj (fields.attach.map (fun kvh =>
      (kvh.1.1, replaceFieldValue procEnv secureValues kvh.1.1 kvh.1.2
        (applySecureReplacements procEnv secureValues kvh.1.2))))
  | .arr elems => .arr (elems.attach.map (fun vh =>
      applySecureReplacements procEnv secureValues vh.1))
  | .str s => .str s
  | .num n => .num n
  | .bool b => .bool b
  | .null => .null
  decreasing_by
  · rcases kvh with ⟨⟨k, v⟩, hmem⟩
    have h1 : sizeOf (k, v) < sizeOf fields := List.sizeOf_lt_of_mem hmem
    simp only [Json.obj.sizeOf_spec, Prod.mk.sizeOf_spec] at *
    omega
  · rcases vh with ⟨v, hmem⟩
    have h1 : sizeOf v < sizeOf elems := List.sizeOf_lt_of_mem hmem
    simp only [Json.arr.sizeOf_spec] at *
    omega

/-- Rust `types.rs`: `enum ErrorCode` with its discriminant values. -/
inductive ErrorCode where
  | connectionClosed
  | requestTimeout
  | parseError
  | invalidRequest
  | methodNotFound
  | invalidParams
  | internalError
  deriving Repr

/-- The `as i32` discriminant of an `ErrorCode`. -/
def ErrorCode.toInt : ErrorCode → Int
  | .connectionClosed => -1
  | .requestTimeout => -2
  | .parseError => -32700
  | .invalidRequest => -32600
  | .methodNotFound => -32601
  | .invalidParams => -32602
  | .internalError => -32603

/-- A live entry of the pending-request table `pending_requests`. The `id` is
the `HashMap` key; `serial` is a ghost label identifying the oneshot sender
stored in the entry (the `serial`-th channel ever created), used to state the
at-most-one-send property of `oneshot` channels. -/
structure PendingEntry where
  id : Nat
  serial : Nat
  deriving Repr, DecidableEq

/-- State of `protocol.rs` `Protocol`: the `AtomicU64` request-ID counter and
the pending-request table. `created` counts `create_request` calls (the next
ghost serial); `signalled` is the ghost log of oneshot sends that have been
performed, newest first. -/
structure Protocol where
  requestId : Nat
  pending : List PendingEntry
  created : Nat
  signalled : List Nat
  deriving Repr

/-- Rust `ProtocolBuilder::build`: counter starts at 0, table empty. -/
def Protocol.build : Protocol :=
  { requestId := 0, pending := [], created := 0, signalled := [] }

/-- Rust `Protocol::new_message_id`: `fetch_add(1, SeqCst)` on the `AtomicU64`
counter returns the previous value; the stored value wraps at 2^64. -/
def Protocol.newMessageId (p : Protocol) : Nat × Protocol :=
  (p.requestId, { p with requestId := (p.requestId + 1) % 2 ^ 64 })

/-- Rust `HashMap::insert` on the pending table: any existing binding of the key is
replaced. -/
def insertPending (pending : List PendingEntry) (id serial : Nat) : List PendingEntry :=
  ⟨id, serial⟩ :: pending.filter (fun e => e.id ≠ id)

/-- Rust `Protocol::create_request`: allocate a fresh id and install a fresh
oneshot sender (ghost serial `created`) in the pending table. -/
def Protocol.createRequest (p : Protocol) : Nat × Protocol :=
  let (id, p1) := p.newMessageId
  (id, { p1 with pending := insertPending p1.pending id p1.created, created := p1.created + 1 })

/-- Rust `HashMap::remove` key lookup on the pending table. -/
def lookupPending (pending : List PendingEntry) (id : Nat) : Option Nat :=
  (pending.find? (fun e => e.id = id)).map (fun e => e.serial)

/-- Removal of a key from the pending table (`HashMap::remove`). -/
def removePending (pending : List PendingEntry) (id : Nat) : List PendingEntry :=
  pending.filter (fun e => e.id ≠ id)

/-- Rust `Protocol::handle_response`: remove the entry for `response.id`; when one
was present, send the response through its oneshot sender (ghost-logged in
`signalled`); otherwise do nothing. The second component is the value handed
to the waiter, if any. -/
def Protocol.handleResponse (p : Protocol) (response : JsonRpcResponse) :
    Protocol × Option JsonRpcResponse :=
  match lookupPending p.pending response.id with
  | some serial =>
    ({ p with pending := removePending p.pending response.id,
              signalled := serial :: p.signalled }, some response)
  | none => (p, none)

/-- The synthetic response sent by `Protocol::cancel_response`:
`ErrorCode::RequestTimeout as i32` with message `"Request cancelled"`, the
other fields from `..Default::default()`. -/
def requestCancelledResponse (id : Nat) : JsonRpcResponse :=
  { id := id, result := none,
    error := some { code := ErrorCode.requestTimeout.toInt,
                    message := "Request cancelled", data := none },
    jsonrpc := jsonRpcVersionDefault }

/-- Rust `Protocol::cancel_response`: remove the entry for `id`; when one was
present, send the synthetic `RequestTimeout` response through its oneshot
sender. The second component is the value handed to the waiter, if any. -/
def Protocol.cancelResponse (p : Protocol) (id : Nat) :
    Protocol × Option JsonRpcResponse :=
  match lookupPending p.pending id with
  | some serial =>
    ({ p with pending := removePending p.pending id,
              signalled := serial :: p.signalled }, some (requestCancelledResponse id))
  | none => (p, none)

/-- Rust `TypedRequestHandler::handle` replaces absent or `null` params by the
empty JSON object `json!({})` before deserializing. -/
def effectiveParams : Option Json → Json
  | none => .obj []
  | some .null => .obj []
  | some v => v

/-- Rust `TypedRequestHandler::handle` for a registered handler whose
deserialize-run-serialize pipeline is erased to `f : Json → Except String
Json`: on success it wraps the serialized result in a response that reuses the
request id; any error (deserialization, user code, serialization) passes
through. -/
def typedHandle (f : Json → Except String Json) (request : JsonRpcRequest) :
    Except String JsonRpcResponse :=
  match f (effectiveParams request.params) with
  | .error e => .error e
  | .ok v => .ok { id := request.id, result := some v, error := none,
                   jsonrpc := jsonRpcVersionDefault }

/-- Rust `Protocol::handle_request`: look up the method in `request_handlers`; a
missing handler yields a `MethodNotFound` response, a handler error an
`InternalError` response carrying the error message, and a handler success
the handler-built response. The registered handlers are
`TypedRequestHandler`s, modelled by their erased pipeline `f`. -/
def Protocol.handleRequest (handlers : String → Option (Json → Except String Json))
    (request : JsonRpcRequest) : JsonRpcResponse :=
  match handlers request.method with
  | some f =>
    match typedHandle f request with
    | .ok response => response
    | .error e =>
      { id := request.id, result := none,
        error := some { code := ErrorCode.internalError.toInt,
                        message := e, data := none },
        jsonrpc := jsonRpcVersionDefault }
  | none =>
    { id := request.id, result := none,
      error := some { code := ErrorCode.methodNotFound.toInt,
                      message := "Method not found: " ++ request.method, data := none },
      jsonrpc := jsonRpcVersionDefault }

/-- Rust `protocol.rs`: `DEFAULT_REQUEST_TIMEOUT_MSEC`. -/
def DEFAULT_REQUEST_TIMEOUT_MSEC : Nat := 60000

/-- Rust `protocol.rs`: `RequestOptions { timeout: Duration }`, in milliseconds. -/
structure RequestOptions where
  timeout : Nat

/-- Rust `RequestOptions::default()`. -/
def RequestOptions.default : RequestOptions :=
  { timeout := DEFAULT_REQUEST_TIMEOUT_MSEC }

/-- What the oneshot receiver of an outbound request would deliver if awaited
forever: a response sent at time `t`, a dropped sender at time `t`, or nothing
ever. Times are in milliseconds from the moment the request was written. -/
inductive AwaitDelivery where
  | arrives (t : Nat) (r : JsonRpcResponse)
  | senderDropped (t : Nat)
  | never

/-- The synthetic response returned by `ClientStdioTransport::request` and
`ClientSseTransport::request` when `timeout(options.timeout, rx)` elapses:
`ErrorCode::RequestTimeout as i32` with message `"Request timed out"`. -/
def requestTimedOutResponse (id : Nat) : JsonRpcResponse :=
  { id := id, result := none,
    error := some { code := ErrorCode.requestTimeout.toInt,
                    message := "Request timed out", data := none },
    jsonrpc := jsonRpcVersionDefault }

/-- The awaiting tail of `ClientStdioTransport::request` (identical in
`ClientSseTransport::request`): `timeout(options.timeout, rx)` resolves with
the delivered value if one arrives within the timeout, with a closed-channel
error if the sender is dropped within the timeout, and with an elapsed error
at exactly the timeout otherwise. On either error the transport calls
`protocol.cancel_response(id)` and returns the corresponding synthetic
response itself. Returns (resolution time in ms, returned response, protocol
state afterwards); `p` is the protocol state when the waiter resolves. -/
def transportRequestAwait (options : RequestOptions) (delivery : AwaitDelivery)
    (p : Protocol) (id : Nat) : Nat × JsonRpcResponse × Protocol :=
  match delivery with
  | .arrives t r =>
    if t ≤ options.timeout then (t, r, p)
    else (options.timeout, requestTimedOutResponse id, (p.cancelResponse id).1)
  | .senderDropped t =>
    if t ≤ options.timeout then (t, requestCancelledResponse id, (p.cancelResponse id).1)
    else (options.timeout, requestTimedOutResponse id, (p.cancelResponse id).1)
  | .never => (options.timeout, requestTimedOutResponse id, (p.cancelResponse id).1)

/-- One inbound event processed against the protocol state: a
`create_request` call, an inbound response, or a cancellation. -/
inductive ProtocolOp where
  | create
  | deliver (response : JsonRpcResponse)
  | cancel (id : Nat)

/-- Effect of one operation on the protocol state. -/
def Protocol.stepOp (p : Protocol) : ProtocolOp → Protocol
  | .create => p.createRequest.2
  | .deliver response => (p.handleResponse response).1
  | .cancel id => (p.cancelResponse id).1

/-- The protocol state reached from `Protocol.build` by a sequence of
operations. -/
def Protocol.runOps (ops : List ProtocolOp) : Protocol :=
  ops.foldl Protocol.stepOp Protocol.build

/-- Rust `types.rs`: `enum ProtocolVersion`. -/
inductive ProtocolVersion where
  | v2024_11_05
  | v2025_03_26
  deriving Repr, DecidableEq

/-- Rust `ProtocolVersion::as_str`. -/
def ProtocolVersion.asStr : ProtocolVersion → String
  | .v2024_11_05 => "2024-11-05"
  | .v2025_03_26 => "2025-03-26"

/-- Rust `types.rs`: `LATEST_PROTOCOL_VERSION`. -/
def LATEST_PROTOCOL_VERSION : ProtocolVersion := .v2025_03_26

/-- Rust `types.rs`: `Implementation { name, version }`. -/
structure Implementation where
  name : String
  version : String
  deriving Repr, DecidableEq

/-- Rust `types.rs`: `RootCapabilities { list_changed }`. -/
structure RootCapabilities where
  listChanged : Option Bool
  deriving Repr, DecidableEq

/-- Rust `types.rs`: `ClientCapabilities { experimental, sampling, roots }`. -/
structure ClientCapabilities where
  experimental : Option Json
  sampling : Option Json
  roots : Option RootCapabilities
  deriving Repr

/-- Rust `ClientCapabilities::default()`. -/
def ClientCapabilities.default : ClientCapabilities :=
  { experimental := none, sampling := none, roots := none }

/-- Rust `types.rs`: `ToolCapabilities { list_changed }`. -/
structure ToolCapabilities where
  listChanged : Option Bool
  deriving Repr, DecidableEq

/-- Rust `types.rs`: `PromptCapabilities { list_changed }`. -/
structure PromptCapabilities where
  listChanged : Option Bool
  deriving Repr, DecidableEq

/-- Rust `types.rs`: `ResourceCapabilities { subscribe, list_changed }`. -/
structure ResourceCapabilities where
  subscribe : Option Bool
  listChanged : Option Bool
  deriving Repr, DecidableEq

/-- Rust `types.rs`: `ServerCapabilities`. -/
structure ServerCapabilities where
  tools : Option ToolCapabilities
  experimental : Option Json
  logging : Option Json
  completions : Option Json
  prompts : Option PromptCapabilities
  resources : Option ResourceCapabilities
  deriving Repr

/-- Rust `ServerCapabilities::default()`. -/
def ServerCapabilities.default : ServerCapabilities :=
  { tools := none, experimental := none, logging := none, completions := none,
    prompts := none, resources := none }

/-- Rust `types.rs`: `InitializeRequest { protocol_version, capabilities, client_info }`. -/
structure InitializeRequest where
  protocolVersion : String
  capabilities : ClientCapabilities
  clientInfo : Implementation
  deriving Repr

/-- Rust `types.rs`: `InitializeResponse { protocol_version, capabilities,
server_info, instructions }`. -/
structure InitializeResponse where
  protocolVersion : String
  capabilities : ServerCapabilities
  serverInfo : Implementation
  instructions : Option String
  deriving Repr

/-- Rust `types.rs`: `ToolAnnotations` (title plus four boolean hints). -/
structure ToolAnnotations where
  title : Option String
  readOnlyHint : Option Bool
  destructiveHint : Option Bool
  idempotentHint : Option Bool
  openWorldHint : Option Bool
  deriving Repr, DecidableEq

/-- Rust `types.rs`: `Tool { name, description, input_schema, annotations }`. -/
structure Tool where
  name : String
  description : Option String
  inputSchema : Json
  annotations : Option ToolAnnotations
  deriving Repr

/-- Rust `types.rs`: `ListRequest { cursor, _meta }`. -/
structure ListRequest where
  cursor : Option String
  meta : Option Json
  deriving Repr

/-- Rust `types.rs`: `ToolsListResponse { tools, next_cursor, _meta }`. -/
structure ToolsListResponse where
  tools : List Tool
  nextCursor : Option String
  meta : Option Json
  deriving Repr

/-- Rust `types.rs`: `CallToolRequest { name, arguments, _meta }`. The arguments
are a `HashMap<String, Value>`, modelled as a key-value list. -/
structure CallToolRequest where
  name : String
  arguments : Option (List (String × Json))
  meta : Option Json
  deriving Repr

/-- Rust `types.rs`: `TextContent`; `content_type` is always "text". -/
structure TextContent where
  contentType : String
  text : String
  annotations : Option Json
  deriving Repr

/-- Rust `types.rs`: `ImageContent`. The client-facing `Annotations` record (whose
`priority` is an `f32`) is carried opaquely as JSON; no embedded code path
inspects it. -/
structure ImageContent where
  contentType : String
  data : String
  mimeType : String
  annotations : Option Json
  deriving Repr

/-- Rust `types.rs`: `AudioContent`. -/
structure AudioContent where
  contentType : String
  data : String
  mimeType : String
  annotations : Option Json
  deriving Repr

/-- Rust `types.rs`: `ResourceContents`; the `url::Url` is carried as its string
form. -/
structure ResourceContents where
  uri : String
  mimeType : Option String
  text : Option String
  blob : Option String
  deriving Repr

/-- Rust `types.rs`: `EmbeddedResource`. -/
structure EmbeddedResource where
  contentType : String
  resource : ResourceContents
  annotations : Option Json
  deriving Repr

/-- Rust `types.rs`: `enum ToolResponseContent`, internally tagged by `type`. -/
inductive ToolResponseContent where
  | text (c : TextContent)
  | image (c : ImageContent)
  | audio (c : AudioContent)
  | resource (c : EmbeddedResource)
  deriving Repr

/-- Rust `types.rs`: `CallToolResponse { content, is_error, _meta }`. -/
structure CallToolResponse where
  content : List ToolResponseContent
  isError : Option Bool
  meta : Option Json
  deriving Repr

/-- Known fields of `RootCapabilities` (lenient, struct default). -/
def rootCapabilitiesFieldCheck : String → Option (Json → Bool)
  | "listChanged" => some (fun v => (asOptionBool v).isSome)
  | _ => none

/-- Deserializer of `RootCapabilities`. -/
def deserializeRootCapabilities (j : Json) : Option RootCapabilities :=
  match j with
  | .obj fields => do
    let valid ← serdeFields rootCapabilitiesFieldCheck false fields
    let listChanged ← fieldOr valid "listChanged" none asOptionBool
    pure { listChanged }
  | _ => none

/-- Deserializing an `Option<RootCapabilities>` field value. -/
def asOptionRootCapabilities (j : Json) : Option (Option RootCapabilities) :=
  match j with
  | .null => some none
  | v => (deserializeRootCapabilities v).map some

/-- Known fields of `ClientCapabilities` (lenient, struct default). -/
def clientCapabilitiesFieldCheck : String → Option (Json → Bool)
  | "experimental" => some (fun v => (asOptionValue v).isSome)
  | "sampling" => some (fun v => (asOptionValue v).isSome)
  | "roots" => some (fun v => (asOptionRootCapabilities v).isSome)
  | _ => none

/-- Deserializer of `ClientCapabilities`. -/
def deserializeClientCapabilities (j : Json) : Option ClientCapabilities :=
  match j with
  | .obj fields => do
    let valid ← serdeFields clientCapabilitiesFieldCheck false fields
    let experimental ← fieldOr valid "experimental" none asOptionValue
    let sampling ← fieldOr valid "sampling" none asOptionValue
    let roots ← fieldOr valid "roots" none asOptionRootCapabilities
    pure { experimental, sampling, roots }
  | _ => none

/-- Known fields of `Implementation` (lenient, struct default). -/
def implementationFieldCheck : String → Option (Json → Bool)
  | "name" => some (fun v => (asString v).isSome)
  | "version" => some (fun v => (asString v).isSome)
  | _ => none

/-- Deserializer of `Implementation`. -/
def deserializeImplementation (j : Json) : Option Implementation :=
  match j with
  | .obj fields => do
    let valid ← serdeFields implementationFieldCheck false fields
    let name ← fieldOr valid "name" "" asString
    let version ← fieldOr valid "version" "" asString
    pure { name, version }
  | _ => none

/-- Known fields of `InitializeRequest` (lenient, struct default,
camelCase renames). -/
def initializeRequestFieldCheck : String → Option (Json → Bool)
  | "protocolVersion" => some (fun v => (asString v).isSome)
  | "capabilities" => some (fun v => (deserializeClientCapabilities v).isSome)
  | "clientInfo" => some (fun v => (deserializeImplementation v).isSome)
  | _ => none

/-- Deserializer of `InitializeRequest`. -/
def deserializeInitializeRequest (j : Json) : Option InitializeRequest :=
  match j with
  | .obj fields => do
    let valid ← serdeFields initializeRequestFieldCheck false fields
    let protocolVersion ← fieldOr valid "protocolVersion" "" asString
    let capabilities ← fieldOr valid "capabilities" ClientCapabilities.default
      deserializeClientCapabilities
    let clientInfo ← fieldOr valid "clientInfo" { name := "", version := "" }
      deserializeImplementation
    pure { protocolVersion, capabilities, clientInfo }
  | _ => none

/-- Known fields of `ListRequest` (lenient, no struct default; both fields
are `Option` and so may be absent). -/
def listRequestFieldCheck : String → Option (Json → Bool)
  | "cursor" => some (fun v => (asOptionString v).isSome)
  | "_meta" => some (fun v => (asOptionValue v).isSome)
  | _ => none

/-- Deserializer of `ListRequest`. -/
def deserializeListRequest (j : Json) : Option ListRequest :=
  match j with
  | .obj fields => do
    let valid ← serdeFields listRequestFieldCheck false fields
    let cursor ← fieldOr valid "cursor" none asOptionString
    let meta ← fieldOr valid "_meta" none asOptionValue
    pure { cursor, meta }
  | _ => none

/-- Deserializing an `Option<HashMap<String, Value>>` field value: `null`
becomes `None`, an object becomes its map, anything else fails. -/
def asArgumentsMap (j : Json) : Option (Option (List (String × Json))) :=
  match j with
  | .null => some none
  | .obj fields => some (some fields)
  | _ => none

/-- Known fields of `CallToolRequest` (lenient, no struct default: `name` is
required). -/
def callToolRequestFieldCheck : String → Option (Json → Bool)
  | "name" => some (fun v => (asString v).isSome)
  | "arguments" => some (fun v => (asArgumentsMap v).isSome)
  | "_meta" => some (fun v => (asOptionValue v).isSome)
  | _ => none

/-- Deserializer of `CallToolRequest`. -/
def deserializeCallToolRequest (j : Json) : Option CallToolRequest :=
  match j with
  | .obj fields => do
    let valid ← serdeFields callToolRequestFieldCheck false fields
    let name ← (lookupField valid "name").bind asString
    let arguments ← fieldOr valid "arguments" none asArgumentsMap
    let meta ← fieldOr valid "_meta" none asOptionValue
    pure { name, arguments, meta }
  | _ => none

/-- Deserializer of the unit type `()`: serde accepts only JSON `null`. -/
def deserializeUnit (j : Json) : Option Unit :=
  match j with
  | .null => some ()
  | _ => none

/-- Serialization helper for an omit-if-absent optional field. -/
def optField (k : String) : Option Json → List (String × Json)
  | none => []
  | some v => [(k, v)]

/-- Serializer of `Implementation`. -/
def serializeImplementation (i : Implementation) : Json :=
  .obj [("name", .str i.name), ("version", .str i.version)]

/-- Serializer of `ToolCapabilities`. -/
def serializeToolCapabilities (c : ToolCapabilities) : Json :=
  .obj (optField "listChanged" (c.listChanged.map .bool))

/-- Serializer of `PromptCapabilities`. -/
def serializePromptCapabilities (c : PromptCapabilities) : Json :=
  .obj (optField "listChanged" (c.listChanged.map .bool))

/-- Serializer of `ResourceCapabilities`. -/
def serializeResourceCapabilities (c : ResourceCapabilities) : Json :=
  .obj (optField "subscribe" (c.subscribe.map .bool) ++
    optField "listChanged" (c.listChanged.map .bool))

/-- Serializer of `ServerCapabilities`, fields in declaration order. -/
def serializeServerCapabilities (c : ServerCapabilities) : Json :=
  .obj (optField "tools" (c.tools.map serializeToolCapabilities) ++
    optField "experimental" c.experimental ++
    optField "logging" c.logging ++
    optField "completions" c.completions ++
    optField "prompts" (c.prompts.map serializePromptCapabilities) ++
    optField "resources" (c.resources.map serializeResourceCapabilities))

/-- Serializer of `InitializeResponse`. -/
def serializeInitializeResponse (r : InitializeResponse) : Json :=
  .obj ([("protocolVersion", .str r.protocolVersion),
    ("capabilities", serializeServerCapabilities r.capabilities),
    ("serverInfo", serializeImplementation r.serverInfo)] ++
    optField "instructions" (r.instructions.map .str))

/-- Serializer of `ToolAnnotations`. -/
def serializeToolAnnotations (a : ToolAnnotations) : Json :=
  .obj (optField "title" (a.title.map .str) ++
    optField "readOnlyHint" (a.readOnlyHint.map .bool) ++
    optField "destructiveHint" (a.destructiveHint.map .bool) ++
    optField "idempotentHint" (a.idempotentHint.map .bool) ++
    optField "openWorldHint" (a.openWorldHint.map .bool))

/-- Serializer of `Tool`. -/
def serializeTool (t : Tool) : Json :=
  .obj ([("name", .str t.name)] ++
    optField "description" (t.description.map .str) ++
    [("inputSchema", t.inputSchema)] ++
    optField "annotations" (t.annotations.map serializeToolAnnotations))

/-- Serializer of `ToolsListResponse`. -/
def serializeToolsListResponse (r : ToolsListResponse) : Json :=
  .obj ([("tools", .arr (r.tools.map serializeTool))] ++
    optField "nextCursor" (r.nextCursor.map .str) ++
    optField "_meta" r.meta)

/-- Serializer of `ResourceContents`. -/
def serializeResourceContents (c : ResourceContents) : Json :=
  .obj ([("uri", .str c.uri)] ++
    optField "mimeType" (c.mimeType.map .str) ++
    optField "text" (c.text.map .str) ++
    optField "blob" (c.blob.map .str))

/-- Serializer of `ToolResponseContent`, internally tagged by `type`; the
inner structs repeat the tag in their `content_type` field, which
serde_json's map semantics collapses into the single `type` key emitted
here. -/
def serializeToolResponseContent : ToolResponseContent → Json
  | .text c => .obj ([("type", .str "text"), ("text", .str c.text)] ++
      optField "annotations" c.annotations)
  | .image c => .obj ([("type", .str "image"), ("data", .str c.data),
      ("mimeType", .str c.mimeType)] ++ optField "annotations" c.annotations)
  | .audio c => .obj ([("type", .str "audio"), ("data", .str c.data),
      ("mimeType", .str c.mimeType)] ++ optField "annotations" c.annotations)
  | .resource c => .obj ([("type", .str "resource"),
      ("resource", serializeResourceContents c.resource)] ++
      optField "annotations" c.annotations)

/-- Serializer of `CallToolResponse`. -/
def serializeCallToolResponse (r : CallToolResponse) : Json :=
  .obj ([("content", .arr (r.content.map serializeToolResponseContent))] ++
    optField "isError" (r.isError.map .bool) ++
    optField "_meta" r.meta)

/-- Rust `server.rs`: `ClientConnection { client_capabilities, client_info,
initialized }`, the per-connection state behind the `RwLock`. -/
structure ClientConnection where
  clientCapabilities : Option ClientCapabilities
  clientInfo : Option Implementation
  initialized : Bool

/-- Rust `tools.rs`: `ToolHandler { tool, f }`. The async handler future is
modelled by its result. -/
structure ToolHandler where
  tool : Tool
  f : CallToolRequest → CallToolResponse

/-- Rust `server.rs`: the configuration carried by `ServerProtocolBuilder` into
`build()`: protocol version, server info, capabilities, instructions and the
registered tools keyed by name. -/
structure ServerProtocolBuilder where
  protocolVersion : ProtocolVersion
  serverInfo : Implementation
  capabilities : ServerCapabilities
  instructions : Option String
  tools : List (String × ToolHandler)

/-- Rust `Tools::list_tools`: the registered tool descriptors. -/
def Tools.listTools (tools : List (String × ToolHandler)) : List Tool :=
  tools.map (fun kv => kv.2.tool)

/-- Rust `Tools::call_tool`: look up the handler by `req.name`; an unknown name is
the error `"Tool not found: {name}"`, otherwise the handler result. -/
def Tools.callTool (tools : List (String × ToolHandler)) (req : CallToolRequest) :
    Except String CallToolResponse :=
  match tools.find? (fun kv => kv.1 = req.name) with
  | none => .error ("Tool not found: " ++ req.name)
  | some kv => .ok (kv.2.f req)

/-- Rust `ServerProtocolBuilder::handle_init`: record the client capabilities and
info in the connection state and answer with the configured server identity;
the handler does not read or write `initialized`. -/
def handleInit (b : ServerProtocolBuilder) (state : ClientConnection)
    (req : InitializeRequest) : ClientConnection × Except String InitializeResponse :=
  ({ state with clientCapabilities := some req.capabilities,
                clientInfo := some req.clientInfo },
   .ok { protocolVersion := b.protocolVersion.asStr, capabilities := b.capabilities,
         serverInfo := b.serverInfo, instructions := b.instructions })

/-- Rust `ServerProtocolBuilder::handle_initialized`: set `initialized` to true. -/
def handleInitialized (state : ClientConnection) : ClientConnection × Except String Unit :=
  ({ state with initialized := true }, .ok ())

/-- The `tools/list` closure registered in `ServerProtocolBuilder::build`:
refuse with `"Client not initialized"` unless `initialized`, else list the
registry. -/
def toolsListHandler (b : ServerProtocolBuilder) (state : ClientConnection)
    (_req : ListRequest) : Except String ToolsListResponse :=
  if !state.initialized then .error "Client not initialized"
  else .ok { tools := Tools.listTools b.tools, nextCursor := none, meta := none }

/-- The `tools/call` closure registered in `ServerProtocolBuilder::build`:
refuse with `"Client not initialized"` unless `initialized`, else dispatch to
`Tools::call_tool`. -/
def toolsCallHandler (b : ServerProtocolBuilder) (state : ClientConnection)
    (req : CallToolRequest) : Except String CallToolResponse :=
  if !state.initialized then .error "Client not initialized"
  else Tools.callTool b.tools req

/-- A success response as built by `TypedRequestHandler::handle`. -/
def okResponse (id : Nat) (v : Json) : JsonRpcResponse :=
  { id := id, result := some v, error := none, jsonrpc := jsonRpcVersionDefault }

/-- An `InternalError` response as built by `Protocol::handle_request` from a
handler error message. -/
def internalErrorResponse (id : Nat) (e : String) : JsonRpcResponse :=
  { id := id, result := none,
    error := some { code := ErrorCode.internalError.toInt, message := e, data := none },
    jsonrpc := jsonRpcVersionDefault }

/-- A `MethodNotFound` response as built by `Protocol::handle_request`. -/
def methodNotFoundResponse (id : Nat) (method : String) : JsonRpcResponse :=
  { id := id, result := none,
    error := some { code := ErrorCode.methodNotFound.toInt,
                    message := "Method not found: " ++ method, data := none },
    jsonrpc := jsonRpcVersionDefault }

/-- The message of the `InternalError` response produced when
`TypedRequestHandler::handle` fails to deserialize the params into the typed
request; the source surfaces serde_json display output, whose exact wording no
embedded code path inspects. -/
def invalidParamsMessage (typeName : String) : String :=
  "invalid params: expected " ++ typeName

/-- Rust `Protocol::handle_request` on the handler map installed by
`ServerProtocolBuilder::build`: methods `initialize`, `tools/list` and
`tools/call` run their typed closures over the shared `ClientConnection`
state; every other method produces a `MethodNotFound` response. Handler
errors are wrapped as `InternalError` responses carrying the error message. -/
def serverHandleRequest (b : ServerProtocolBuilder) (state : ClientConnection)
    (request : JsonRpcRequest) : ClientConnection × JsonRpcResponse :=
  if request.method = "initialize" then
    match deserializeInitializeRequest (effectiveParams request.params) with
    | none => (state, internalErrorResponse request.id (invalidParamsMessage "InitializeRequest"))
    | some req =>
      let (state2, r) := handleInit b state req
      match r with
      | .ok resp => (state2, okResponse request.id (serializeInitializeResponse resp))
      | .error e => (state2, internalErrorResponse request.id e)
  else if request.method = "tools/list" then
    match deserializeListRequest (effectiveParams request.params) with
    | none => (state, internalErrorResponse request.id (invalidParamsMessage "ListRequest"))
    | some req =>
      match toolsListHandler b state req with
      | .ok resp => (state, okResponse request.id (serializeToolsListResponse resp))
      | .error e => (state, internalErrorResponse request.id e)
  else if request.method = "tools/call" then
    match deserializeCallToolRequest (effectiveParams request.params) with
    | none => (state, internalErrorResponse request.id (invalidParamsMessage "CallToolRequest"))
    | some req =>
      match toolsCallHandler b state req with
      | .ok resp => (state, okResponse request.id (serializeCallToolResponse resp))
      | .error e => (state, internalErrorResponse request.id e)
  else (state, methodNotFoundResponse request.id request.method)

/-- Rust `TypedNotificationHandler::handle` deserializes absent or `null` params
from `Value::Null` (unlike the request path, which substitutes `json!({})`). -/
def effectiveNotificationParams : Option Json → Json
  | none => .null
  | some .null => .null
  | some v => v

/-- Rust `Protocol::handle_notification` on the handler map installed by
`ServerProtocolBuilder::build`: only `notifications/initialized` is
registered; its typed params are `()`, so non-null params make the handler
fail, which is only logged. Unknown notifications are logged and ignored. -/
def serverHandleNotification (state : ClientConnection) (n : JsonRpcNotification) :
    ClientConnection :=
  if n.method = "notifications/initialized" then
    match deserializeUnit (effectiveNotificationParams n.params) with
    | some _ => (handleInitialized state).1
    | none => state
  else state

/-- Observable outcome of `Client::initialize` (`client.rs`): the
`InitializeRequest` payload sent, the returned value, what got cached in
`initialize_res`, and whether the `notifications/initialized` notification
was sent. -/
structure ClientInitOutcome where
  requestSent : InitializeRequest
  result : Except String InitializeResponse
  cached : Option InitializeResponse
  initializedNotificationSent : Bool

/-- Rust `Client::initialize`: send an `initialize` request built from the
configured protocol version, capabilities and client info; on a parsed
response, reject a `protocol_version` mismatch with
`"Unsupported protocol version: {v}"` (caching nothing and sending no
notification); otherwise cache the response, send
`notifications/initialized`, and return the response. `serverResponse` is the
parsed `InitializeResponse` the transport delivered. -/
def clientInitialize (protocolVersion : ProtocolVersion)
    (capabilities : ClientCapabilities) (clientInfo : Implementation)
    (serverResponse : InitializeResponse) : ClientInitOutcome :=
  let request : InitializeRequest :=
    { protocolVersion := protocolVersion.asStr, capabilities := capabilities,
      clientInfo := clientInfo }
  if serverResponse.protocolVersion ≠ protocolVersion.asStr then
    { requestSent := request,
      result := .error ("Unsupported protocol version: " ++ serverResponse.protocolVersion),
      cached := none,
      initializedNotificationSent := false }
  else
    { requestSent := request,
      result := .ok serverResponse,
      cached := some serverResponse,
      initializedNotificationSent := true }

/-- Rust `serde_json::from_value::<HashMap<String, Value>>`: succeeds exactly on
JSON objects. -/
def jsonToStringMap : Json → Option (List (String × Json))
  | .obj fields => some fields
  | _ => none

/-- The first half of the argument preparation in `Client::call_tool`: apply
the secure-value substitutor when a secure-value map is configured. -/
def callToolSubstitutedArguments (procEnv : String → Option String)
    (env : Option (String → Option SecureValue)) (args : Option Json) :
    Option Json :=
  match env with
  | some m => args.map (applySecureReplacements procEnv m)
  | none => args

/-- The argument preparation in `Client::call_tool`: after substitution the
value is coerced into a string-keyed map, silently substituting the empty map
when the coercion fails (`unwrap_or_else(|_| HashMap::new())`). -/
def callToolPreparedArguments (procEnv : String → Option String)
    (env : Option (String → Option SecureValue)) (args : Option Json) :
    Option (List (String × Json)) :=
  (callToolSubstitutedArguments procEnv env args).map
    (fun v => (jsonToStringMap v).getD [])

/-- The `CallToolRequest` payload sent by `Client::call_tool` for a tool
`name` and raw `args`. -/
def callToolRequestSent (procEnv : String → Option String)
    (env : Option (String → Option SecureValue)) (name : String)
    (args : Option Json) : CallToolRequest :=
  { name := name, arguments := callToolPreparedArguments procEnv env args,
    meta := none }

/-- A field list is valid for a struct deserializer when every key is known
to it and every value passes its check. -/
def FieldsValidFor (parsers : String → Option (Json → Bool))
    (fields : List (String × Json)) : Prop :=
  ∀ kv ∈ fields, ∃ c, parsers kv.1 = some c ∧ c kv.2 = true

/-- The protocol state after `n` successive `create_request` calls on a
freshly built protocol. -/
def iterCreate : Nat → Protocol
  | 0 => Protocol.build
  | n + 1 => (iterCreate n).createRequest.2

/-- The outbound request id produced by the `(n+1)`-th `create_request` call
on a freshly built protocol. -/
def outboundId (n : Nat) : Nat :=
  (iterCreate n).createRequest.1

/-- Invariant of the pending-request table: the ghost serials in the table
and in the signal log are pairwise distinct (each oneshot sender exists in
one place and is used at most once), and all are below the creation
counter. -/
def ProtocolInv (p : Protocol) : Prop :=
  (p.pending.map PendingEntry.serial ++ p.signalled).Nodup ∧
  ∀ s ∈ p.pending.map PendingEntry.serial ++ p.signalled, s < p.created

/-- Unfolding of `applySecureReplacements` on an object, with the `attach`
bookkeeping of the termination argument removed. -/
theorem applySecureReplacements_obj (procEnv : String → Option String)
    (secureValues : String → Option SecureValue) (fields : List (String × Json)) :
    applySecureReplacements procEnv secureValues (.obj fields) =
      .obj (fields.map (fun kv =>
        (kv.1, replaceFieldValue procEnv secureValues kv.1 kv.2
          (applySecureReplacements procEnv secureValues kv.2)))) := by
  rw [applySecureReplacements]
  rw [List.attach_map_val fields (fun kv =>
    (kv.1, replaceFieldValue procEnv secureValues kv.1 kv.2
      (applySecureReplacements procEnv secureValues kv.2)))]

/-- Unfolding of `applySecureReplacements` on an array. -/
theorem applySecureReplacements_arr (procEnv : String → Option String)
    (secureValues : String → Option SecureValue) (elems : List Json) :
    applySecureReplacements procEnv secureValues (.arr elems) =
      .arr (elems.map (applySecureReplacements procEnv secureValues)) := by
  rw [applySecureReplacements]
  rw [List.attach_map_val elems (applySecureReplacements procEnv secureValues)]

/-- On a value that is not a JSON string, `replaceFieldValue` always takes the
recursive branch, whatever the configuration says about the key. -/
theorem replaceFieldValue_not_str (procEnv : String → Option String)
    (secureValues : String → Option SecureValue) (k : String) (v recursed : Json)
    (h : ∀ s, v ≠ .str s) :
    replaceFieldValue procEnv secureValues k v recursed = recursed := by
  cases v with
  | str s => exact absurd rfl (h s)
  | null => cases hsv : secureValues k with
    | none => rfl
    | some svv => cases svv <;> simp [replaceFieldValue, hsv]
  | bool b => cases hsv : secureValues k with
    | none => rfl
    | some svv => cases svv <;> simp [replaceFieldValue, hsv]
  | num n => cases hsv : secureValues k with
    | none => rfl
    | some svv => cases svv <;> simp [replaceFieldValue, hsv]
  | arr elems => cases hsv : secureValues k with
    | none => rfl
    | some svv => cases svv <;> simp [replaceFieldValue, hsv]
  | obj fields => cases hsv : secureValues k with
    | none => rfl
    | some svv => cases svv <;> simp [replaceFieldValue, hsv]

/-- The substitutor never turns a non-string value into a string: it is
constructor-preserving on `null`, `bool`, `num`, `arr` and `obj`. -/
theorem applySecureReplacements_ne_str (procEnv : String → Option String)
    (secureValues : String → Option SecureValue) (v : Json)
    (h : ∀ s, v ≠ .str s) :
    ∀ s, applySecureReplacements procEnv secureValues v ≠ .str s := by
  intro s
  cases v with
  | null => simp [applySecureReplacements]
  | bool b => simp [applySecureReplacements]
  | num n => simp [applySecureReplacements]
  | str t => exact absurd rfl (h t)
  | arr elems => rw [applySecureReplacements_arr]; simp
  | obj fields => rw [applySecureReplacements_obj]; simp

/-- Idempotence of the per-entry step combined with the walk: replaying the
replacement on an already-replaced entry value changes nothing. The bound `n`
drives the strong induction on `sizeOf`. -/
theorem applySecureReplacements_idem_bounded (procEnv : String → Option String)
    (secureValues : String → Option SecureValue) :
    ∀ (n : Nat) (w : Json), sizeOf w ≤ n →
      applySecureReplacements procEnv secureValues
          (applySecureReplacements procEnv secureValues w) =
        applySecureReplacements procEnv secureValues w := by
  intro n
  induction n with
  | zero =>
    intro w hw
    cases w <;>
      simp only [Json.null.sizeOf_spec, Json.bool.sizeOf_spec, Json.num.sizeOf_spec,
        Json.str.sizeOf_spec, Json.arr.sizeOf_spec, Json.obj.sizeOf_spec] at hw <;>
      omega
  | succ n ih =>
    intro w hw
    cases w with
    | null => simp [applySecureReplacements]
    | bool b => simp [applySecureReplacements]
    | num m => simp [applySecureReplacements]
    | str s => simp [applySecureReplacements]
    | arr elems =>
      rw [applySecureReplacements_arr, applySecureReplacements_arr, List.map_map]
      congr 1
      apply List.map_congr_left
      intro a ha
      have h1 : sizeOf a < sizeOf elems := List.sizeOf_lt_of_mem ha
      simp only [Json.arr.sizeOf_spec] at hw
      exact ih a (by omega)
    | obj fields =>
      rw [applySecureReplacements_obj, applySecureReplacements_obj, List.map_map]
      congr 1
      apply List.map_congr_left
      rintro ⟨k, v⟩ hkv
      have h1 : sizeOf (k, v) < sizeOf fields := List.sizeOf_lt_of_mem hkv
      simp only [Json.obj.sizeOf_spec, Prod.mk.sizeOf_spec] at hw h1
      have hv : sizeOf v ≤ n := by omega
      simp only [Function.comp_apply]
      cases v with
      | str s =>
        cases hsv : secureValues k with
        | none =>
          simp only [replaceFieldValue, hsv, applySecureReplacements]
        | some svv =>
          cases svv with
          | static value => simp only [replaceFieldValue, hsv]
          | env envKey =>
            simp only [replaceFieldValue, hsv]
            cases procEnv envKey <;> simp
      | null =>
        have hne : ∀ s, (Json.null : Json) ≠ .str s := by intro s h; cases h
        rw [replaceFieldValue_not_str _ _ _ _ _ hne,
          replaceFieldValue_not_str _ _ _ _ _
            (applySecureReplacements_ne_str _ _ _ hne)]
        exact congrArg _ (ih _ hv)
      | bool b =>
        have hne : ∀ s, (Json.bool b : Json) ≠ .str s := by intro s h; cases h
        rw [replaceFieldValue_not_str _ _ _ _ _ hne,
          replaceFieldValue_not_str _ _ _ _ _
            (applySecureReplacements_ne_str _ _ _ hne)]
        exact congrArg _ (ih _ hv)
      | num m =>
        have hne : ∀ s, (Json.num m : Json) ≠ .str s := by intro s h; cases h
        rw [replaceFieldValue_not_str _ _ _ _ _ hne,
          replaceFieldValue_not_str _ _ _ _ _
            (applySecureReplacements_ne_str _ _ _ hne)]
        exact congrArg _ (ih _ hv)
      | arr elems2 =>
        have hne : ∀ s, (Json.arr elems2 : Json) ≠ .str s := by intro s h; cases h
        rw [replaceFieldValue_not_str _ _ _ _ _ hne,
          replaceFieldValue_not_str _ _ _ _ _
            (applySecureReplacements_ne_str _ _ _ hne)]
        exact congrArg _ (ih _ hv)
      | obj fields2 =>
        have hne : ∀ s, (Json.obj fields2 : Json) ≠ .str s := by intro s h; cases h
        rw [replaceFieldValue_not_str _ _ _ _ _ hne,
          replaceFieldValue_not_str _ _ _ _ _
            (applySecureReplacements_ne_str _ _ _ hne)]
        exact congrArg _ (ih _ hv)

/-- A key absent from a field list has no binding. -/
theorem lookupField_eq_none {fields : List (String × Json)} {k : String}
    (h : k ∉ jsonKeys fields) : lookupField fields k = none := by
  induction fields with
  | nil => rfl
  | cons kv rest ih =>
    simp only [jsonKeys, List.map_cons, List.mem_cons, not_or] at h
    unfold lookupField
    rw [List.find?_cons_of_neg]
    · exact ih (by simpa [jsonKeys] using h.2)
    · simp only [decide_eq_true_eq]
      exact fun hk => h.1 hk.symm

/-- A key present in a field list has a binding, and the bound value is one
of the entries. -/
theorem lookupField_mem {fields : List (String × Json)} {k : String}
    (h : k ∈ jsonKeys fields) :
    ∃ v, lookupField fields k = some v ∧ (k, v) ∈ fields := by
  induction fields with
  | nil => simp [jsonKeys] at h
  | cons kv rest ih =>
    by_cases hk : kv.1 = k
    · refine ⟨kv.2, ?_, ?_⟩
      · unfold lookupField
        rw [List.find?_cons_of_pos _ (by simp [hk])]
        rfl
      · subst hk
        exact List.mem_cons_self _ _
    · simp only [jsonKeys, List.map_cons, List.mem_cons] at h
      rcases h with h | h
      · exact absurd h.symm hk
      · obtain ⟨v, hv, hvm⟩ := ih (by simpa [jsonKeys] using h)
        refine ⟨v, ?_, List.mem_cons_of_mem _ hvm⟩
        unfold lookupField at hv ⊢
        rw [List.find?_cons_of_neg _ (by simp [hk])]
        exact hv

/-- When every field is known and valid and the keys are distinct, the
field-visiting loop succeeds and collects the fields unchanged. -/
theorem serdeFieldsGo_all_known (parsers : String → Option (Json → Bool))
    (strict : Bool) :
    ∀ (fields : List (String × Json)) (seen : List String) (acc : List (String × Json)),
      FieldsValidFor parsers fields →
      (∀ k ∈ jsonKeys fields, k ∉ seen) →
      (jsonKeys fields).Nodup →
      serdeFieldsGo parsers strict seen acc fields = some (acc.reverse ++ fields) := by
  intro fields
  induction fields with
  | nil => intro seen acc _ _ _; simp [serdeFieldsGo]
  | cons kv rest ih =>
    intro seen acc hvalid hseen hnodup
    obtain ⟨c, hc, hcv⟩ := hvalid kv (List.mem_cons_self _ _)
    have hnd := List.nodup_cons.mp hnodup
    simp only [serdeFieldsGo, hc]
    rw [if_neg (hseen kv.1 (List.mem_cons_self _ _))]
    rw [if_pos hcv]
    rw [ih (kv.1 :: seen) (kv :: acc)
      (fun kv2 h2 => hvalid kv2 (List.mem_cons_of_mem _ h2))
      (fun k hk => by
        simp only [List.mem_cons, not_or]
        refine ⟨fun heq => hnd.1 ?_, hseen k (List.mem_cons_of_mem _ hk)⟩
        rw [heq] at hk
        exact hk)
      hnd.2]
    simp

/-- In strict mode, any field whose key is unknown to the struct makes the
field-visiting loop fail, wherever it occurs. -/
theorem serdeFieldsGo_unknown_none (parsers : String → Option (Json → Bool))
    {k : String} {v : Json} (hunknown : parsers k = none) :
    ∀ (fields : List (String × Json)), (k, v) ∈ fields →
      ∀ (seen : List String) (acc : List (String × Json)),
        serdeFieldsGo parsers true seen acc fields = none := by
  intro fields
  induction fields with
  | nil => intro h; cases h
  | cons kv rest ih =>
    intro hmem seen acc
    rcases List.mem_cons.mp hmem with heq | hmem2
    · have hkv : kv.1 = k := by rw [← heq]
      simp [serdeFieldsGo, hkv, hunknown]
    · simp only [serdeFieldsGo]
      cases hp : parsers kv.1 with
      | none => simp
      | some c =>
        by_cases hseen : kv.1 ∈ seen
        · simp [hseen]
        · by_cases hchk : c kv.2 = true
          · simp only [if_neg hseen, if_pos hchk]
            exact ih hmem2 _ _
          · simp [hseen, hchk]

/-- The keys collected by the field-visiting loop all come from the seed
accumulator or from the visited fields. -/
theorem serdeFieldsGo_keys_subset (parsers : String → Option (Json → Bool))
    (strict : Bool) :
    ∀ (fields : List (String × Json)) (seen : List String)
      (acc out : List (String × Json)),
      serdeFieldsGo parsers strict seen acc fields = some out →
      ∀ k, k ∈ jsonKeys out → k ∈ jsonKeys acc ∨ k ∈ jsonKeys fields := by
  intro fields
  induction fields with
  | nil =>
    intro seen acc out hout k hk
    simp only [serdeFieldsGo, Option.some.injEq] at hout
    subst hout
    left
    simpa [jsonKeys] using hk
  | cons kv rest ih =>
    intro seen acc out hout k hk
    simp only [serdeFieldsGo] at hout
    cases hp : parsers kv.1 with
    | none =>
      rw [hp] at hout
      cases strict with
      | true => simp at hout
      | false =>
        simp only [Bool.false_eq_true, if_false] at hout
        rcases ih seen acc out hout k hk with h | h
        · exact Or.inl h
        · exact Or.inr (List.mem_cons_of_mem _ h)
    | some c =>
      rw [hp] at hout
      by_cases hseen : kv.1 ∈ seen
      · simp [hseen] at hout
      · by_cases hchk : c kv.2 = true
        · simp only [if_neg hseen, if_pos hchk] at hout
          rcases ih _ _ out hout k hk with h | h
          · rcases List.mem_cons.mp h with h | h
            · exact Or.inr (by rw [h]; exact List.mem_cons_self _ _)
            · exact Or.inl h
          · exact Or.inr (List.mem_cons_of_mem _ h)
        · simp [hseen, hchk] at hout

/-- Rust `serdeFields` on fully known, valid, duplicate-free fields returns the
fields unchanged. -/
theorem serdeFields_all_known (parsers : String → Option (Json → Bool))
    (strict : Bool) (fields : List (String × Json))
    (hvalid : FieldsValidFor parsers fields) (hnodup : (jsonKeys fields).Nodup) :
    serdeFields parsers strict fields = some fields := by
  unfold serdeFields
  rw [serdeFieldsGo_all_known parsers strict fields [] [] hvalid (by simp) hnodup]
  simp

/-- Rust `serdeFields` in strict mode rejects a field list containing an unknown
key. -/
theorem serdeFields_unknown_none (parsers : String → Option (Json → Bool))
    {k : String} {v : Json} (hunknown : parsers k = none)
    {fields : List (String × Json)} (hmem : (k, v) ∈ fields) :
    serdeFields parsers true fields = none :=
  serdeFieldsGo_unknown_none parsers hunknown fields hmem [] []

/-- The keys surviving `serdeFields` come from the input fields. -/
theorem serdeFields_keys_subset (parsers : String → Option (Json → Bool))
    (strict : Bool) {fields out : List (String × Json)}
    (hout : serdeFields parsers strict fields = some out) :
    ∀ k, k ∈ jsonKeys out → k ∈ jsonKeys fields := by
  intro k hk
  rcases serdeFieldsGo_keys_subset parsers strict fields [] [] out hout k hk with h | h
  · simp [jsonKeys] at h
  · exact h

/-- Extracting the value check of a known field from validity. -/
theorem fieldsValid_value {parsers : String → Option (Json → Bool)}
    {fields : List (String × Json)} {k : String} {v : Json} {c : Json → Bool}
    (hvalid : FieldsValidFor parsers fields) (hmem : (k, v) ∈ fields)
    (hp : parsers k = some c) : c v = true := by
  obtain ⟨c2, hc2, hcv⟩ := hvalid (k, v) hmem
  rw [hp] at hc2
  injection hc2 with hc3
  rw [hc3]
  exact hcv

/-- A key unknown to the struct cannot occur in a valid field list. -/
theorem fieldsValid_not_mem_keys {parsers : String → Option (Json → Bool)}
    {fields : List (String × Json)} {k : String}
    (hvalid : FieldsValidFor parsers fields) (hk : parsers k = none) :
    k ∉ jsonKeys fields := by
  intro hmem
  obtain ⟨v, _, hv⟩ := lookupField_mem hmem
  obtain ⟨c, hc, _⟩ := hvalid (k, v) hv
  rw [hk] at hc
  cases hc

/-- Rust `asOptionValue` always succeeds. -/
theorem asOptionValue_isSome (v : Json) : ∃ o, asOptionValue v = some o := by
  cases v <;> exact ⟨_, rfl⟩

/-- Keys other than the four envelope fields of `JsonRpcRequest` are unknown
to its deserializer. -/
theorem requestFieldCheck_eq_none {k : String} (h1 : k ≠ "id")
    (h2 : k ≠ "method") (h3 : k ≠ "params") (h4 : k ≠ "jsonrpc") :
    requestFieldCheck k = none := by
  unfold requestFieldCheck
  split <;> simp_all

/-- Keys other than the four envelope fields of `JsonRpcResponse` are unknown
to its deserializer. -/
theorem responseFieldCheck_eq_none {k : String} (h1 : k ≠ "id")
    (h2 : k ≠ "result") (h3 : k ≠ "error") (h4 : k ≠ "jsonrpc") :
    responseFieldCheck k = none := by
  unfold responseFieldCheck
  split <;> simp_all

/-- Keys other than the three envelope fields of `JsonRpcNotification` are
unknown to its deserializer. -/
theorem notificationFieldCheck_eq_none {k : String} (h1 : k ≠ "method")
    (h2 : k ≠ "params") (h3 : k ≠ "jsonrpc") :
    notificationFieldCheck k = none := by
  unfold notificationFieldCheck
  split <;> simp_all

/-- Reading an absent field takes the serde default. -/
theorem fieldOr_of_none {α : Type} {fields : List (String × Json)} {k : String}
    (d : α) (f : Json → Option α) (h : lookupField fields k = none) :
    fieldOr fields k d f = some d := by
  unfold fieldOr
  rw [h]

/-- Reading a present field deserializes its value. -/
theorem fieldOr_of_some {α : Type} {fields : List (String × Json)} {k : String}
    {v : Json} (d : α) (f : Json → Option α) (h : lookupField fields k = some v) :
    fieldOr fields k d f = f v := by
  unfold fieldOr
  rw [h]

/-- A successful field lookup names an entry of the field list. -/
theorem lookupField_some_mem {fields : List (String × Json)} {k : String}
    {v : Json} (h : lookupField fields k = some v) : (k, v) ∈ fields := by
  unfold lookupField at h
  obtain ⟨e, hfind, hmap⟩ := Option.map_eq_some'.mp h
  have hmem := List.mem_of_find?_eq_some hfind
  have hpred := List.find?_some hfind
  simp only [decide_eq_true_eq] at hpred
  have he : e = (k, v) := Prod.ext hpred hmap
  rw [← he]
  exact hmem

/-- A strict-envelope object with distinct, typed, known fields carrying
`id`, `method` and `jsonrpc` deserializes as a `JsonRpcRequest`. -/
theorem deserializeJsonRpcRequest_success {fields : List (String × Json)}
    (hnd : (jsonKeys fields).Nodup)
    (hvalid : FieldsValidFor requestFieldCheck fields)
    (hid : "id" ∈ jsonKeys fields) (hm : "method" ∈ jsonKeys fields)
    (hj : "jsonrpc" ∈ jsonKeys fields) :
    ∃ r, deserializeJsonRpcRequest (.obj fields) = some r := by
  have hsf := serdeFields_all_known requestFieldCheck true fields hvalid hnd
  obtain ⟨vid, hvid, hmemid⟩ := lookupField_mem hid
  have hcid : (asU64 vid).isSome = true := fieldsValid_value hvalid hmemid rfl
  obtain ⟨nid, hnid⟩ := Option.isSome_iff_exists.mp hcid
  obtain ⟨vm, hvm, hmemm⟩ := lookupField_mem hm
  have hcm : (asString vm).isSome = true := fieldsValid_value hvalid hmemm rfl
  obtain ⟨sm, hsm⟩ := Option.isSome_iff_exists.mp hcm
  obtain ⟨vj, hvj, hmemj⟩ := lookupField_mem hj
  have hcj : (asString vj).isSome = true := fieldsValid_value hvalid hmemj rfl
  obtain ⟨sj, hsj⟩ := Option.isSome_iff_exists.mp hcj
  cases hp : lookupField fields "params" with
  | none =>
    refine ⟨{ id := nid, method := sm, params := none, jsonrpc := sj }, ?_⟩
    simp [deserializeJsonRpcRequest, hsf, hvid, hnid, hvm, hsm, hvj, hsj,
      fieldOr_of_none _ _ hp]
  | some vp =>
    obtain ⟨op, hop⟩ := asOptionValue_isSome vp
    refine ⟨{ id := nid, method := sm, params := op, jsonrpc := sj }, ?_⟩
    simp [deserializeJsonRpcRequest, hsf, hvid, hnid, hvm, hsm, hvj, hsj,
      fieldOr_of_some _ _ hp, hop]

/-- A request envelope without an `id` field cannot deserialize as a
`JsonRpcRequest`. -/
theorem deserializeJsonRpcRequest_no_id {fields : List (String × Json)}
    (h : "id" ∉ jsonKeys fields) :
    deserializeJsonRpcRequest (.obj fields) = none := by
  unfold deserializeJsonRpcRequest
  cases hsf : serdeFields requestFieldCheck true fields with
  | none => simp [hsf]
  | some valid =>
    have hnk : "id" ∉ jsonKeys valid :=
      fun hk => h (serdeFields_keys_subset _ _ hsf _ hk)
    simp [hsf, lookupField_eq_none hnk]

/-- A request envelope without a `jsonrpc` field cannot deserialize as a
`JsonRpcRequest` (the struct has no serde default). -/
theorem deserializeJsonRpcRequest_no_jsonrpc {fields : List (String × Json)}
    (h : "jsonrpc" ∉ jsonKeys fields) :
    deserializeJsonRpcRequest (.obj fields) = none := by
  unfold deserializeJsonRpcRequest
  cases hsf : serdeFields requestFieldCheck true fields with
  | none => simp [hsf]
  | some valid =>
    have hnk : "jsonrpc" ∉ jsonKeys valid :=
      fun hk => h (serdeFields_keys_subset _ _ hsf _ hk)
    have hlf : lookupField valid "jsonrpc" = none := lookupField_eq_none hnk
    cases hid : (lookupField valid "id").bind asU64 with
    | none => simp [hsf, hid]
    | some n =>
      cases hm : (lookupField valid "method").bind asString with
      | none => simp [hsf, hid, hm]
      | some m => simp [hsf, hid, hm, hlf]

/-- An object carrying a `method` key, which `JsonRpcResponse` does not know,
cannot deserialize as a response (strict envelope). -/
theorem deserializeJsonRpcResponse_method_none {fields : List (String × Json)}
    (hm : "method" ∈ jsonKeys fields) :
    deserializeJsonRpcResponse (.obj fields) = none := by
  obtain ⟨v, _, hvm⟩ := lookupField_mem hm
  simp only [deserializeJsonRpcResponse]
  rw [serdeFields_unknown_none responseFieldCheck
    (show responseFieldCheck "method" = none from rfl) hvm]
  rfl

/-- A distinct-keyed object valid for the `JsonRpcResponse` envelope
deserializes as a response, with `jsonrpc` defaulting to "2.0" when the field
is absent. -/
theorem deserializeJsonRpcResponse_success {fields : List (String × Json)}
    (hnd : (jsonKeys fields).Nodup)
    (hvalid : FieldsValidFor responseFieldCheck fields) :
    ∃ r, deserializeJsonRpcResponse (.obj fields) = some r ∧
      ("jsonrpc" ∉ jsonKeys fields → r.jsonrpc = jsonRpcVersionDefault) := by
  have hsf := serdeFields_all_known responseFieldCheck true fields hvalid hnd
  have hidb : ∃ oid, fieldOr fields "id" 0 asU64 = some oid := by
    cases hl : lookupField fields "id" with
    | none => exact ⟨0, fieldOr_of_none _ _ hl⟩
    | some v =>
      have hc : (asU64 v).isSome = true :=
        fieldsValid_value hvalid (lookupField_some_mem hl) rfl
      obtain ⟨n, hn⟩ := Option.isSome_iff_exists.mp hc
      exact ⟨n, by rw [fieldOr_of_some _ _ hl]; exact hn⟩
  obtain ⟨oid, hoid⟩ := hidb
  have hresb : ∃ ores, fieldOr fields "result" none asOptionValue = some ores := by
    cases hl : lookupField fields "result" with
    | none => exact ⟨none, fieldOr_of_none _ _ hl⟩
    | some v =>
      obtain ⟨o, ho⟩ := asOptionValue_isSome v
      exact ⟨o, by rw [fieldOr_of_some _ _ hl]; exact ho⟩
  obtain ⟨ores, hores⟩ := hresb
  have herrb : ∃ oerr, fieldOr fields "error" none asOptionError = some oerr := by
    cases hl : lookupField fields "error" with
    | none => exact ⟨none, fieldOr_of_none _ _ hl⟩
    | some v =>
      have hc : (asOptionError v).isSome = true :=
        fieldsValid_value hvalid (lookupField_some_mem hl) rfl
      obtain ⟨o, ho⟩ := Option.isSome_iff_exists.mp hc
      exact ⟨o, by rw [fieldOr_of_some _ _ hl]; exact ho⟩
  obtain ⟨oerr, hoerr⟩ := herrb
  by_cases hjk : "jsonrpc" ∈ jsonKeys fields
  · obtain ⟨vj, hvj, hmemj⟩ := lookupField_mem hjk
    have hc : (asString vj).isSome = true := fieldsValid_value hvalid hmemj rfl
    obtain ⟨sj, hsj⟩ := Option.isSome_iff_exists.mp hc
    refine ⟨{ id := oid, result := ores, error := oerr, jsonrpc := sj },
      ?_, fun hnk => absurd hjk hnk⟩
    simp [deserializeJsonRpcResponse, hsf, hoid, hores, hoerr,
      fieldOr_of_some _ _ hvj, hsj]
  · have hlf : lookupField fields "jsonrpc" = none := lookupField_eq_none hjk
    refine ⟨{ id := oid, result := ores, error := oerr, jsonrpc := jsonRpcVersionDefault },
      ?_, fun _ => rfl⟩
    simp [deserializeJsonRpcResponse, hsf, hoid, hores, hoerr,
      fieldOr_of_none _ _ hlf]

/-- A distinct-keyed object valid for the `JsonRpcNotification` envelope
deserializes as a notification, with `jsonrpc` defaulting to "2.0" when the
field is absent. -/
theorem deserializeJsonRpcNotification_success {fields : List (String × Json)}
    (hnd : (jsonKeys fields).Nodup)
    (hvalid : FieldsValidFor notificationFieldCheck fields) :
    ∃ n, deserializeJsonRpcNotification (.obj fields) = some n ∧
      ("jsonrpc" ∉ jsonKeys fields → n.jsonrpc = jsonRpcVersionDefault) := by
  have hsf := serdeFields_all_known notificationFieldCheck true fields hvalid hnd
  have hmb : ∃ m, fieldOr fields "method" "" asString = some m := by
    cases hl : lookupField fields "method" with
    | none => exact ⟨"", fieldOr_of_none _ _ hl⟩
    | some v =>
      have hc : (asString v).isSome = true :=
        fieldsValid_value hvalid (lookupField_some_mem hl) rfl
      obtain ⟨s, hs⟩ := Option.isSome_iff_exists.mp hc
      exact ⟨s, by rw [fieldOr_of_some _ _ hl]; exact hs⟩
  obtain ⟨m, hmv⟩ := hmb
  have hpb : ∃ op, fieldOr fields "params" none asOptionValue = some op := by
    cases hl : lookupField fields "params" with
    | none => exact ⟨none, fieldOr_of_none _ _ hl⟩
    | some v =>
      obtain ⟨o, ho⟩ := asOptionValue_isSome v
      exact ⟨o, by rw [fieldOr_of_some _ _ hl]; exact ho⟩
  obtain ⟨op, hop⟩ := hpb
  by_cases hjk : "jsonrpc" ∈ jsonKeys fields
  · obtain ⟨vj, hvj, hmemj⟩ := lookupField_mem hjk
    have hc : (asString vj).isSome = true := fieldsValid_value hvalid hmemj rfl
    obtain ⟨sj, hsj⟩ := Option.isSome_iff_exists.mp hc
    refine ⟨{ method := m, params := op, jsonrpc := sj },
      ?_, fun hnk => absurd hjk hnk⟩
    simp [deserializeJsonRpcNotification, hsf, hmv, hop,
      fieldOr_of_some _ _ hvj, hsj]
  · have hlf : lookupField fields "jsonrpc" = none := lookupField_eq_none hjk
    refine ⟨{ method := m, params := op, jsonrpc := jsonRpcVersionDefault },
      ?_, fun _ => rfl⟩
    simp [deserializeJsonRpcNotification, hsf, hmv, hop,
      fieldOr_of_none _ _ hlf]

/-- After removing a key from the pending table, the key has no entry. -/
theorem lookupPending_removePending (pending : List PendingEntry) (id : Nat) :
    lookupPending (removePending pending id) id = none := by
  have h : List.find? (fun e => decide (e.id = id)) (removePending pending id) = none := by
    rw [List.find?_eq_none]
    intro e he
    unfold removePending at he
    have h2 := (List.mem_filter.mp he).2
    simp only [decide_eq_true_eq] at h2 ⊢
    exact h2
  unfold lookupPending
  rw [h]
  rfl

/-- Rust `cancel_response` leaves no pending entry for the cancelled id. -/
theorem lookupPending_cancelResponse (p : Protocol) (id : Nat) :
    lookupPending ((p.cancelResponse id).1).pending id = none := by
  unfold Protocol.cancelResponse
  cases h : lookupPending p.pending id with
  | none => simpa using h
  | some s => simpa using lookupPending_removePending p.pending id

/-- A successful pending lookup names an entry of the table. -/
theorem lookupPending_some_mem {pending : List PendingEntry} {id s : Nat}
    (h : lookupPending pending id = some s) :
    ∃ e ∈ pending, e.id = id ∧ e.serial = s := by
  unfold lookupPending at h
  cases hf : pending.find? (fun e => decide (e.id = id)) with
  | none => rw [hf] at h; cases h
  | some e =>
    rw [hf] at h
    refine ⟨e, List.mem_of_find?_eq_some hf, ?_, ?_⟩
    · have := List.find?_some hf
      simpa using this
    · simpa using h

/-- Membership transfer: removing a key keeps the remaining serials (and the
signal log) inside the original serial pool. -/
theorem mem_of_mem_removePending {pending : List PendingEntry} {sig : List Nat}
    {rid : Nat} {x : Nat}
    (hx : x ∈ (removePending pending rid).map PendingEntry.serial ++ sig) :
    x ∈ pending.map PendingEntry.serial ++ sig := by
  rcases List.mem_append.mp hx with hx | hx
  · obtain ⟨e, he, rfl⟩ := List.mem_map.mp hx
    exact List.mem_append.mpr (Or.inl
      (List.mem_map_of_mem _ (List.mem_of_mem_filter he)))
  · exact List.mem_append.mpr (Or.inr hx)

/-- The serial pool shrinks (as a sublist) when a key is removed. -/
theorem removePending_serials_sublist (pending : List PendingEntry) (sig : List Nat)
    (rid : Nat) :
    ((removePending pending rid).map PendingEntry.serial ++ sig).Sublist
      (pending.map PendingEntry.serial ++ sig) :=
  ((List.filter_sublist _).map _).append_right _

/-- Moving the serial of a removed entry from the table to the signal log
preserves distinctness of the combined serial pool, and introduces no new
serial. -/
theorem signalStep_inv :
    ∀ (pending : List PendingEntry) (sig : List Nat) (rid serial : Nat),
      (pending.map PendingEntry.serial ++ sig).Nodup →
      lookupPending pending rid = some serial →
      ((removePending pending rid).map PendingEntry.serial ++ serial :: sig).Nodup ∧
      (∀ x, x ∈ (removePending pending rid).map PendingEntry.serial ++ serial :: sig →
        x ∈ pending.map PendingEntry.serial ++ sig) := by
  intro pending
  induction pending with
  | nil =>
    intro sig rid serial _ hlook
    simp [lookupPending] at hlook
  | cons e rest ih =>
    intro sig rid serial hnodup hlook
    have hnd := List.nodup_cons.mp hnodup
    by_cases hid : e.id = rid
    · have hser : e.serial = serial := by
        unfold lookupPending at hlook
        rw [List.find?_cons_of_pos _ (by simp [hid])] at hlook
        simpa using hlook
      have hrem : removePending (e :: rest) rid = removePending rest rid := by
        unfold removePending
        rw [List.filter_cons_of_neg (by simp [hid])]
      subst hser
      have hnd2 : ((removePending rest rid).map PendingEntry.serial ++ sig).Nodup :=
        List.Nodup.sublist (removePending_serials_sublist rest sig rid) hnd.2
      have hnmem : e.serial ∉ (removePending rest rid).map PendingEntry.serial ++ sig :=
        fun hx => hnd.1 (mem_of_mem_removePending hx)
      constructor
      · rw [hrem]
        exact (List.perm_middle.nodup_iff).mpr (List.nodup_cons.mpr ⟨hnmem, hnd2⟩)
      · intro x hx
        rw [hrem] at hx
        have hx2 : x ∈ e.serial ::
            ((removePending rest rid).map PendingEntry.serial ++ sig) :=
          List.perm_middle.mem_iff.mp hx
        rcases List.mem_cons.mp hx2 with rfl | hx3
        · exact List.mem_append.mpr
            (Or.inl (List.mem_map_of_mem _ (List.mem_cons_self _ _)))
        · exact List.mem_cons_of_mem _ (mem_of_mem_removePending hx3)
    · have hlook2 : lookupPending rest rid = some serial := by
        unfold lookupPending at hlook ⊢
        rw [List.find?_cons_of_neg _ (by simp [hid])] at hlook
        exact hlook
      have hrem : removePending (e :: rest) rid = e :: removePending rest rid := by
        unfold removePending
        rw [List.filter_cons_of_pos (by simp [hid])]
      obtain ⟨hIH1, hIH2⟩ := ih sig rid serial hnd.2 hlook2
      constructor
      · rw [hrem]
        simp only [List.map_cons, List.cons_append, List.nodup_cons]
        exact ⟨fun hx => hnd.1 (hIH2 _ hx), hIH1⟩
      · intro x hx
        rw [hrem] at hx
        simp only [List.map_cons, List.cons_append, List.mem_cons] at hx
        rcases hx with rfl | hx
        · exact List.mem_cons_self _ _
        · exact List.mem_cons_of_mem _ (hIH2 _ hx)

/-- The freshly built protocol satisfies the pending-table invariant. -/
theorem protocolInv_build : ProtocolInv Protocol.build := by
  constructor <;> simp [Protocol.build, ProtocolInv]

/-- Every protocol operation preserves the pending-table invariant. -/
theorem protocolInv_step (p : Protocol) (op : ProtocolOp) (h : ProtocolInv p) :
    ProtocolInv (p.stepOp op) := by
  obtain ⟨hnd, hlt⟩ := h
  cases op with
  | create =>
    simp only [Protocol.stepOp, Protocol.createRequest, Protocol.newMessageId,
      insertPending]
    constructor
    · simp only [List.map_cons, List.cons_append, List.nodup_cons]
      constructor
      · intro hx
        have hx2 := @mem_of_mem_removePending p.pending p.signalled p.requestId _ hx
        exact absurd rfl (Nat.ne_of_lt (hlt _ hx2)).symm
      · exact List.Nodup.sublist
          (removePending_serials_sublist p.pending p.signalled p.requestId) hnd
    · intro s hs
      simp only [List.map_cons, List.cons_append, List.mem_cons] at hs
      rcases hs with rfl | hs
      · exact Nat.lt_succ_self _
      · exact Nat.lt_succ_of_lt (hlt _ (mem_of_mem_removePending hs))
  | deliver response =>
    simp only [Protocol.stepOp, Protocol.handleResponse]
    cases hl : lookupPending p.pending response.id with
    | none => exact ⟨hnd, hlt⟩
    | some serial =>
      obtain ⟨h1, h2⟩ := signalStep_inv p.pending p.signalled response.id serial hnd hl
      exact ⟨h1, fun s hs => hlt s (h2 s hs)⟩
  | cancel id =>
    simp only [Protocol.stepOp, Protocol.cancelResponse]
    cases hl : lookupPending p.pending id with
    | none => exact ⟨hnd, hlt⟩
    | some serial =>
      obtain ⟨h1, h2⟩ := signalStep_inv p.pending p.signalled id serial hnd hl
      exact ⟨h1, fun s hs => hlt s (h2 s hs)⟩

/-- Any operation sequence from the built protocol keeps the invariant. -/
theorem protocolInv_runOps (ops : List ProtocolOp) :
    ProtocolInv (Protocol.runOps ops) := by
  unfold Protocol.runOps
  have main : ∀ (l : List ProtocolOp) (p : Protocol), ProtocolInv p →
      ProtocolInv (l.foldl Protocol.stepOp p) := by
    intro l
    induction l with
    | nil => intro p hp; exact hp
    | cons op rest ih => intro p hp; exact ih _ (protocolInv_step p op hp)
  exact main ops Protocol.build protocolInv_build

/-- C6: each pending slot is signalled at most once (over any operation
sequence the ghost log of oneshot sends stays duplicate-free), and the two
resolution paths behave as claimed: `handle_response` removes the entry for
`response.id` and signals its waiter exactly when the entry is present and
otherwise leaves the state unchanged (a late response is dropped silently);
`cancel_response` removes the entry and delivers the synthetic code -2
response exactly when the entry is present. -/
theorem claim_C6_pending_resolution :
    (∀ (p : Protocol) (response : JsonRpcResponse) (serial : Nat),
      lookupPending p.pending response.id = some serial →
      p.handleResponse response =
        ({ p with pending := removePending p.pending response.id,
                  signalled := serial :: p.signalled }, some response)) ∧
    (∀ (p : Protocol) (response : JsonRpcResponse),
      lookupPending p.pending response.id = none →
      p.handleResponse response = (p, none)) ∧
    (∀ (p : Protocol) (id serial : Nat),
      lookupPending p.pending id = some serial →
      p.cancelResponse id =
        ({ p with pending := removePending p.pending id,
                  signalled := serial :: p.signalled },
         some { id := id, result := none,
                error := some { code := -2, message := "Request cancelled",
                                data := none },
                jsonrpc := jsonRpcVersionDefault })) ∧
    (∀ (p : Protocol) (id : Nat),
      lookupPending p.pending id = none →
      p.cancelResponse id = (p, none)) ∧
    (∀ ops : List ProtocolOp, (Protocol.runOps ops).signalled.Nodup) := by
  refine ⟨?_, ?_, ?_, ?_, ?_⟩
  · intro p response serial h
    unfold Protocol.handleResponse
    rw [h]
  · intro p response h
    unfold Protocol.handleResponse
    rw [h]
  · intro p id serial h
    unfold Protocol.cancelResponse
    rw [h]
    rfl
  · intro p id h
    unfold Protocol.cancelResponse
    rw [h]
  · intro ops
    exact List.Nodup.of_append_right (protocolInv_runOps ops).1

/-- C6 witness: concrete resolution, late-response drop, cancellation with
and without a pending entry, and a concrete operation trace. -/
theorem claim_C6_pending_resolution_witness :
    Protocol.handleResponse
      { requestId := 1, pending := [⟨5, 0⟩], created := 1, signalled := [] }
      { id := 5, result := none, error := none, jsonrpc := "2.0" } =
      ({ requestId := 1, pending := [], created := 1, signalled := [0] },
       some { id := 5, result := none, error := none, jsonrpc := "2.0" }) ∧
    Protocol.handleResponse
      { requestId := 1, pending := [⟨5, 0⟩], created := 1, signalled := [] }
      { id := 6, result := none, error := none, jsonrpc := "2.0" } =
      ({ requestId := 1, pending := [⟨5, 0⟩], created := 1, signalled := [] },
       none) ∧
    Protocol.cancelResponse
      { requestId := 1, pending := [⟨5, 0⟩], created := 1, signalled := [] } 5 =
      ({ requestId := 1, pending := [], created := 1, signalled := [0] },
       some { id := 5, result := none,
              error := some { code := -2, message := "Request cancelled",
                              data := none },
              jsonrpc := jsonRpcVersionDefault }) ∧
    Protocol.cancelResponse
      { requestId := 1, pending := [⟨5, 0⟩], created := 1, signalled := [] } 6 =
      ({ requestId := 1, pending := [⟨5, 0⟩], created := 1, signalled := [] },
       none) ∧
    (Protocol.runOps [.create, .create,
      .deliver { id := 0, result := none, error := none, jsonrpc := "2.0" },
      .cancel 1]).signalled.Nodup :=
  ⟨claim_C6_pending_resolution.1
      { requestId := 1, pending := [⟨5, 0⟩], created := 1, signalled := [] }
      { id := 5, result := none, error := none, jsonrpc := "2.0" } 0 rfl,
   claim_C6_pending_resolution.2.1
      { requestId := 1, pending := [⟨5, 0⟩], created := 1, signalled := [] }
      { id := 6, result := none, error := none, jsonrpc := "2.0" } rfl,
   claim_C6_pending_resolution.2.2.1
      { requestId := 1, pending := [⟨5, 0⟩], created := 1, signalled := [] } 5 0 rfl,
   claim_C6_pending_resolution.2.2.2.1
      { requestId := 1, pending := [⟨5, 0⟩], created := 1, signalled := [] } 6 rfl,
   claim_C6_pending_resolution.2.2.2.2 [.create, .create,
      .deliver { id := 0, result := none, error := none, jsonrpc := "2.0" },
      .cancel 1]⟩

/-- The `tools/list` closure refuses while uninitialized. -/
theorem toolsListHandler_gated (b : ServerProtocolBuilder) (st : ClientConnection)
    (req : ListRequest) (h : st.initialized = false) :
    toolsListHandler b st req = .error "Client not initialized" := by
  unfold toolsListHandler
  rw [h]
  rfl

/-- The `tools/call` closure refuses while uninitialized. -/
theorem toolsCallHandler_gated (b : ServerProtocolBuilder) (st : ClientConnection)
    (req : CallToolRequest) (h : st.initialized = false) :
    toolsCallHandler b st req = .error "Client not initialized" := by
  unfold toolsCallHandler
  rw [h]
  rfl

/-- The `tools/list` closure lists the registry once initialized. -/
theorem toolsListHandler_open (b : ServerProtocolBuilder) (st : ClientConnection)
    (req : ListRequest) (h : st.initialized = true) :
    toolsListHandler b st req =
      .ok { tools := Tools.listTools b.tools, nextCursor := none, meta := none } := by
  unfold toolsListHandler
  rw [h]
  rfl

/-- The `tools/call` closure dispatches to the registry once initialized. -/
theorem toolsCallHandler_open (b : ServerProtocolBuilder) (st : ClientConnection)
    (req : CallToolRequest) (h : st.initialized = true) :
    toolsCallHandler b st req = Tools.callTool b.tools req := by
  unfold toolsCallHandler
  rw [h]
  rfl

/-- The unknown-tool error text can never collide with the gating error
text (their first characters differ). -/
theorem toolNotFound_ne_clientNotInitialized (nm : String) :
    "Tool not found: " ++ nm ≠ "Client not initialized" := by
  intro h
  have h2 : (("Tool not found: " : String).data ++ nm.data).head? =
      (("Client not initialized" : String).data).head? := by
    rw [← String.data_append, h]
  rw [show (("Tool not found: " : String).data ++ nm.data).head? =
    some (Char.ofNat 84) from rfl] at h2
  exact absurd h2 (by decide)

/-- The only error `Tools::call_tool` produces is the unknown-tool error. -/
theorem toolsCallTool_error {tools : List (String × ToolHandler)}
    {req : CallToolRequest} {e : String}
    (h : Tools.callTool tools req = .error e) :
    e = "Tool not found: " ++ req.name := by
  unfold Tools.callTool at h
  cases hfind : tools.find? (fun kv => kv.1 = req.name) with
  | none =>
    rw [hfind] at h
    injection h with h2
    exact h2.symm
  | some kv =>
    rw [hfind] at h
    cases h

/-- C1: on the server protocol built by `ServerProtocolBuilder::build`,
`tools/list` and `tools/call` requests handled while the connection is not
initialized yield an `InternalError` response with message
`"Client not initialized"`; once initialized they are never rejected on
account of initialization state (the gate error message can no longer
occur and the handlers behave as the ungated registry operations); and the
`initialize` request handler and `notifications/initialized` notification
handler run regardless of the flag. Requests whose params deserialize are
the ones that reach the gate. -/
theorem claim_C1_method_gating (b : ServerProtocolBuilder) :
    (∀ (st : ClientConnection) (request : JsonRpcRequest) (req : ListRequest),
      st.initialized = false → request.method = "tools/list" →
      deserializeListRequest (effectiveParams request.params) = some req →
      (serverHandleRequest b st request).2 =
        internalErrorResponse request.id "Client not initialized") ∧
    (∀ (st : ClientConnection) (request : JsonRpcRequest) (req : CallToolRequest),
      st.initialized = false → request.method = "tools/call" →
      deserializeCallToolRequest (effectiveParams request.params) = some req →
      (serverHandleRequest b st request).2 =
        internalErrorResponse request.id "Client not initialized") ∧
    (∀ (st : ClientConnection) (request : JsonRpcRequest) (req : ListRequest),
      st.initialized = true → request.method = "tools/list" →
      deserializeListRequest (effectiveParams request.params) = some req →
      (serverHandleRequest b st request).2 =
        okResponse request.id (serializeToolsListResponse
          { tools := Tools.listTools b.tools, nextCursor := none, meta := none })) ∧
    (∀ (st : ClientConnection) (request : JsonRpcRequest) (req : CallToolRequest),
      st.initialized = true → request.method = "tools/call" →
      deserializeCallToolRequest (effectiveParams request.params) = some req →
      (serverHandleRequest b st request).2 =
        (match Tools.callTool b.tools req with
         | .ok resp => okResponse request.id (serializeCallToolResponse resp)
         | .error e => internalErrorResponse request.id e)) ∧
    (∀ (st : ClientConnection) (request : JsonRpcRequest) (err : JsonRpcError),
      st.initialized = true →
      (request.method = "tools/list" ∨ request.method = "tools/call") →
      (serverHandleRequest b st request).2.error = some err →
      err.message ≠ "Client not initialized") ∧
    (∀ (caps : Option ClientCapabilities) (info : Option Implementation)
      (flag : Bool) (request : JsonRpcRequest),
      request.method = "initialize" →
      (serverHandleRequest b ⟨caps, info, flag⟩ request).2 =
        (serverHandleRequest b ⟨caps, info, true⟩ request).2 ∧
      ((serverHandleRequest b ⟨caps, info, flag⟩ request).1).initialized = flag) ∧
    (∀ (st : ClientConnection) (n : JsonRpcNotification),
      n.method = "notifications/initialized" →
      deserializeUnit (effectiveNotificationParams n.params) = some () →
      serverHandleNotification st n = { st with initialized := true }) := by
  refine ⟨?_, ?_, ?_, ?_, ?_, ?_, ?_⟩
  · intro st request req hinit hm hdes
    simp [serverHandleRequest, hm, hdes, toolsListHandler_gated b st req hinit,
      internalErrorResponse]
  · intro st request req hinit hm hdes
    simp [serverHandleRequest, hm, hdes, toolsCallHandler_gated b st req hinit,
      internalErrorResponse]
  · intro st request req hinit hm hdes
    simp [serverHandleRequest, hm, hdes, toolsListHandler_open b st req hinit,
      okResponse]
  · intro st request req hinit hm hdes
    cases hcall : Tools.callTool b.tools req with
    | ok resp =>
      simp [serverHandleRequest, hm, hdes, toolsCallHandler_open b st req hinit, hcall]
    | error e =>
      simp [serverHandleRequest, hm, hdes, toolsCallHandler_open b st req hinit, hcall]
  · intro st request err hinit hm herr
    rcases hm with hm | hm
    · cases hdes : deserializeListRequest (effectiveParams request.params) with
      | none =>
        simp [serverHandleRequest, hm, hdes, internalErrorResponse,
          invalidParamsMessage] at herr
        rw [← herr]
        decide
      | some req =>
        simp [serverHandleRequest, hm, hdes,
          toolsListHandler_open b st req hinit, okResponse] at herr
    · cases hdes : deserializeCallToolRequest (effectiveParams request.params) with
      | none =>
        simp [serverHandleRequest, hm, hdes, internalErrorResponse,
          invalidParamsMessage] at herr
        rw [← herr]
        decide
      | some req =>
        cases hcall : Tools.callTool b.tools req with
        | ok resp =>
          simp [serverHandleRequest, hm, hdes,
            toolsCallHandler_open b st req hinit, hcall, okResponse] at herr
        | error e =>
          have he := toolsCallTool_error hcall
          simp [serverHandleRequest, hm, hdes,
            toolsCallHandler_open b st req hinit, hcall, internalErrorResponse] at herr
          rw [← herr]
          have hmsg : ({ code := -32603, message := e, data := none } :
            JsonRpcError).message = e := rfl
          rw [hmsg, he]
          exact toolNotFound_ne_clientNotInitialized req.name
  · intro caps info flag request hm
    unfold serverHandleRequest
    rw [hm, if_pos rfl]
    cases hdes : deserializeInitializeRequest (effectiveParams request.params) with
    | none => exact ⟨rfl, rfl⟩
    | some req => exact ⟨rfl, rfl⟩
  · intro st n hm hdes
    unfold serverHandleNotification
    rw [hm, if_pos rfl, hdes]
    rfl

/-- C1 witness: a concrete server (no tools) with concrete requests: gating
before initialization, success after, the post-initialization error message
for an unknown tool, flag-independence of `initialize`, and the notification
setting the flag. -/
theorem claim_C1_method_gating_witness :
    (serverHandleRequest
      { protocolVersion := .v2025_03_26, serverInfo := { name := "s", version := "1" },
        capabilities := ServerCapabilities.default, instructions := none, tools := [] }
      { clientCapabilities := none, clientInfo := none, initialized := false }
      { id := 1, method := "tools/list", params := none, jsonrpc := "2.0" }).2 =
      internalErrorResponse 1 "Client not initialized" ∧
    (serverHandleRequest
      { protocolVersion := .v2025_03_26, serverInfo := { name := "s", version := "1" },
        capabilities := ServerCapabilities.default, instructions := none, tools := [] }
      { clientCapabilities := none, clientInfo := none, initialized := false }
      { id := 2, method := "tools/call",
        params := some (.obj [("name", .str "t")]), jsonrpc := "2.0" }).2 =
      internalErrorResponse 2 "Client not initialized" ∧
    (serverHandleRequest
      { protocolVersion := .v2025_03_26, serverInfo := { name := "s", version := "1" },
        capabilities := ServerCapabilities.default, instructions := none, tools := [] }
      { clientCapabilities := none, clientInfo := none, initialized := true }
      { id := 3, method := "tools/list", params := none, jsonrpc := "2.0" }).2 =
      okResponse 3 (serializeToolsListResponse
        { tools := [], nextCursor := none, meta := none }) ∧
    ("Tool not found: t" ≠ "Client not initialized") ∧
    (serverHandleRequest
      { protocolVersion := .v2025_03_26, serverInfo := { name := "s", version := "1" },
        capabilities := ServerCapabilities.default, instructions := none, tools := [] }
      { clientCapabilities := none, clientInfo := none, initialized := false }
      { id := 4, method := "initialize", params := none, jsonrpc := "2.0" }).2 =
    (serverHandleRequest
      { protocolVersion := .v2025_03_26, serverInfo := { name := "s", version := "1" },
        capabilities := ServerCapabilities.default, instructions := none, tools := [] }
      { clientCapabilities := none, clientInfo := none, initialized := true }
      { id := 4, method := "initialize", params := none, jsonrpc := "2.0" }).2 ∧
    serverHandleNotification
      { clientCapabilities := none, clientInfo := none, initialized := false }
      { method := "notifications/initialized", params := none, jsonrpc := "2.0" } =
      { clientCapabilities := none, clientInfo := none, initialized := true } := by
  refine ⟨?_, ?_, ?_, ?_, ?_, ?_⟩
  · exact (claim_C1_method_gating _).1 _ _
      { cursor := none, meta := none } rfl rfl rfl
  · exact (claim_C1_method_gating _).2.1 _ _
      { name := "t", arguments := none, meta := none } rfl rfl rfl
  · exact (claim_C1_method_gating _).2.2.1 _ _
      { cursor := none, meta := none } rfl rfl rfl
  · exact (claim_C1_method_gating
      { protocolVersion := .v2025_03_26, serverInfo := { name := "s", version := "1" },
        capabilities := ServerCapabilities.default, instructions := none,
        tools := [] }).2.2.2.2.1
      { clientCapabilities := none, clientInfo := none, initialized := true }
      { id := 5, method := "tools/call",
        params := some (.obj [("name", .str "t")]), jsonrpc := "2.0" }
      { code := -32603, message := "Tool not found: t", data := none }
      rfl (Or.inr rfl) rfl
  · exact ((claim_C1_method_gating _).2.2.2.2.2.1 none none false
      { id := 4, method := "initialize", params := none, jsonrpc := "2.0" } rfl).1
  · exact (claim_C1_method_gating
      { protocolVersion := .v2025_03_26, serverInfo := { name := "s", version := "1" },
        capabilities := ServerCapabilities.default, instructions := none,
        tools := [] }).2.2.2.2.2.2 _ _ rfl rfl

/-- C3 counterexample: the object with fields `id` and `method` and nothing
else is rejected by the envelope deserializer (it does not deserialize as the
Request variant, because `JsonRpcRequest` has no serde default and so
requires `jsonrpc`), refuting the claim that presence of `id` and `method`
suffices for the Request variant. -/
theorem claim_C3_counterexample :
    deserializeJsonRpcMessage (.obj [("id", .num 1), ("method", .str "ping")]) =
      none := rfl

/-- C3 (amended): envelope deserialization is structural over well-typed
strict envelopes: an object whose fields are known to `JsonRpcRequest`, with
distinct keys and valid values, carrying `id`, `method` and also `jsonrpc`
(which the Request struct cannot default) parses as Request; an object valid
for the `JsonRpcResponse` fields carrying `id` (and hence no `method`) parses
as Response; an object valid for the `JsonRpcNotification` fields carrying
`method` (and hence no `id`) parses as Notification; and any object carrying
a top-level field unknown to all three envelopes is rejected. -/
theorem claim_C3_amended_envelope_parsing :
    (∀ fields : List (String × Json), (jsonKeys fields).Nodup →
      FieldsValidFor requestFieldCheck fields →
      "id" ∈ jsonKeys fields → "method" ∈ jsonKeys fields →
      "jsonrpc" ∈ jsonKeys fields →
      ∃ r, deserializeJsonRpcMessage (.obj fields) = some (.request r)) ∧
    (∀ fields : List (String × Json), (jsonKeys fields).Nodup →
      FieldsValidFor responseFieldCheck fields →
      "id" ∈ jsonKeys fields →
      ∃ r, deserializeJsonRpcMessage (.obj fields) = some (.response r)) ∧
    (∀ fields : List (String × Json), (jsonKeys fields).Nodup →
      FieldsValidFor notificationFieldCheck fields →
      "method" ∈ jsonKeys fields →
      ∃ n, deserializeJsonRpcMessage (.obj fields) = some (.notification n)) ∧
    (∀ (fields : List (String × Json)) (k : String) (v : Json), (k, v) ∈ fields →
      k ≠ "id" → k ≠ "method" → k ≠ "params" → k ≠ "result" →
      k ≠ "error" → k ≠ "jsonrpc" →
      deserializeJsonRpcMessage (.obj fields) = none) := by
  refine ⟨?_, ?_, ?_, ?_⟩
  · intro fields hnd hvalid hid hm hj
    have hresp := deserializeJsonRpcResponse_method_none hm
    obtain ⟨r, hr⟩ := deserializeJsonRpcRequest_success hnd hvalid hid hm hj
    exact ⟨r, by simp [deserializeJsonRpcMessage, hresp, hr]⟩
  · intro fields hnd hvalid _
    obtain ⟨r, hr, _⟩ := deserializeJsonRpcResponse_success hnd hvalid
    exact ⟨r, by simp [deserializeJsonRpcMessage, hr]⟩
  · intro fields hnd hvalid hm
    have hresp := deserializeJsonRpcResponse_method_none hm
    have hreq : deserializeJsonRpcRequest (.obj fields) = none :=
      deserializeJsonRpcRequest_no_id (fieldsValid_not_mem_keys hvalid
        (show notificationFieldCheck "id" = none from rfl))
    obtain ⟨n, hn, _⟩ := deserializeJsonRpcNotification_success hnd hvalid
    exact ⟨n, by simp [deserializeJsonRpcMessage, hresp, hreq, hn]⟩
  · intro fields k v hmem h1 h2 h3 h4 h5 h6
    have hrq : deserializeJsonRpcRequest (.obj fields) = none := by
      simp only [deserializeJsonRpcRequest]
      rw [serdeFields_unknown_none requestFieldCheck
        (requestFieldCheck_eq_none h1 h2 h3 h6) hmem]
      rfl
    have hrs : deserializeJsonRpcResponse (.obj fields) = none := by
      simp only [deserializeJsonRpcResponse]
      rw [serdeFields_unknown_none responseFieldCheck
        (responseFieldCheck_eq_none h1 h4 h5 h6) hmem]
      rfl
    have hnt : deserializeJsonRpcNotification (.obj fields) = none := by
      simp only [deserializeJsonRpcNotification]
      rw [serdeFields_unknown_none notificationFieldCheck
        (notificationFieldCheck_eq_none h2 h3 h6) hmem]
      rfl
    simp [deserializeJsonRpcMessage, hrq, hrs, hnt]

/-- C3 witness: the three variants at concrete envelopes, and the rejection
of an unknown top-level field. -/
theorem claim_C3_amended_envelope_parsing_witness :
    (∃ r, deserializeJsonRpcMessage
        (.obj [("id", .num 1), ("method", .str "ping"), ("jsonrpc", .str "2.0")]) =
      some (.request r)) ∧
    (∃ r, deserializeJsonRpcMessage (.obj [("id", .num 1)]) =
      some (.response r)) ∧
    (∃ n, deserializeJsonRpcMessage (.obj [("method", .str "hi")]) =
      some (.notification n)) ∧
    deserializeJsonRpcMessage (.obj [("id", .num 1), ("banana", .null)]) =
      none := by
  refine ⟨?_, ?_, ?_, ?_⟩
  · refine claim_C3_amended_envelope_parsing.1 _ (by decide) ?_
      (by decide) (by decide) (by decide)
    intro kv hkv
    rcases List.mem_cons.mp hkv with rfl | hkv2
    · exact ⟨_, rfl, by decide⟩
    rcases List.mem_cons.mp hkv2 with rfl | hkv3
    · exact ⟨_, rfl, by decide⟩
    rcases List.mem_cons.mp hkv3 with rfl | hkv4
    · exact ⟨_, rfl, by decide⟩
    cases hkv4
  · refine claim_C3_amended_envelope_parsing.2.1 _ (by decide) ?_ (by decide)
    intro kv hkv
    rcases List.mem_cons.mp hkv with rfl | hkv2
    · exact ⟨_, rfl, by decide⟩
    cases hkv2
  · refine claim_C3_amended_envelope_parsing.2.2.1 _ (by decide) ?_ (by decide)
    intro kv hkv
    rcases List.mem_cons.mp hkv with rfl | hkv2
    · exact ⟨_, rfl, by decide⟩
    cases hkv2
  · exact claim_C3_amended_envelope_parsing.2.2.2 _ "banana" .null
      (by simp) (by decide) (by decide) (by decide) (by decide) (by decide)
      (by decide)

/-- C5 counterexample: an envelope with an integer `id` and a string `method`
but no `jsonrpc` field does not deserialize as a Request with the default
version; it does not deserialize at all (`JsonRpcRequest` lacks a struct-level
serde default, so `jsonrpc` is required). -/
theorem claim_C5_counterexample :
    deserializeJsonRpcRequest
      (.obj [("id", .num 2), ("method", .str "tools/list")]) = none ∧
    deserializeJsonRpcMessage
      (.obj [("id", .num 2), ("method", .str "tools/list")]) = none :=
  ⟨rfl, rfl⟩

/-- C5 (amended): the canonical default "2.0" for a missing `jsonrpc` field
applies to the Response and Notification envelopes (which carry struct-level
serde defaults); a Request envelope missing `jsonrpc` is instead rejected. -/
theorem claim_C5_amended_jsonrpc_default :
    (∀ fields : List (String × Json), "jsonrpc" ∉ jsonKeys fields →
      deserializeJsonRpcRequest (.obj fields) = none) ∧
    (∀ fields : List (String × Json), (jsonKeys fields).Nodup →
      FieldsValidFor responseFieldCheck fields →
      "jsonrpc" ∉ jsonKeys fields →
      ∃ r, deserializeJsonRpcResponse (.obj fields) = some r ∧
        r.jsonrpc = jsonRpcVersionDefault) ∧
    (∀ fields : List (String × Json), (jsonKeys fields).Nodup →
      FieldsValidFor notificationFieldCheck fields →
      "jsonrpc" ∉ jsonKeys fields →
      ∃ n, deserializeJsonRpcNotification (.obj fields) = some n ∧
        n.jsonrpc = jsonRpcVersionDefault) := by
  refine ⟨?_, ?_, ?_⟩
  · intro fields h
    exact deserializeJsonRpcRequest_no_jsonrpc h
  · intro fields hnd hvalid hjk
    obtain ⟨r, hr, hdef⟩ := deserializeJsonRpcResponse_success hnd hvalid
    exact ⟨r, hr, hdef hjk⟩
  · intro fields hnd hvalid hjk
    obtain ⟨n, hn, hdef⟩ := deserializeJsonRpcNotification_success hnd hvalid
    exact ⟨n, hn, hdef hjk⟩

/-- C5 witness: concrete envelopes without `jsonrpc`: a rejected request, a
response and a notification that default to "2.0". -/
theorem claim_C5_amended_jsonrpc_default_witness :
    deserializeJsonRpcRequest (.obj [("id", .num 3)]) = none ∧
    (∃ r, deserializeJsonRpcResponse (.obj [("result", .bool true)]) = some r ∧
      r.jsonrpc = jsonRpcVersionDefault) ∧
    (∃ n, deserializeJsonRpcNotification (.obj [("method", .str "x")]) = some n ∧
      n.jsonrpc = jsonRpcVersionDefault) := by
  refine ⟨?_, ?_, ?_⟩
  · exact claim_C5_amended_jsonrpc_default.1 _ (by decide)
  · refine claim_C5_amended_jsonrpc_default.2.1 _ (by decide) ?_ (by decide)
    intro kv hkv
    rcases List.mem_cons.mp hkv with rfl | hkv2
    · exact ⟨_, rfl, by decide⟩
    cases hkv2
  · refine claim_C5_amended_jsonrpc_default.2.2 _ (by decide) ?_ (by decide)
    intro kv hkv
    rcases List.mem_cons.mp hkv with rfl | hkv2
    · exact ⟨_, rfl, by decide⟩
    cases hkv2

/-- C2: `Protocol::handle_request` is total (it is a Lean function into
`JsonRpcResponse`, so it never raises) and for every inbound request returns
exactly one response with the request id: a missing handler yields a
`MethodNotFound` (-32601) error response, a handler error an `InternalError`
(-32603) response carrying the handler error message, and a handler success a
response carrying the serialized result and no error. -/
theorem claim_C2_handle_request_total
    (handlers : String → Option (Json → Except String Json))
    (request : JsonRpcRequest) :
    (Protocol.handleRequest handlers request).id = request.id ∧
    (handlers request.method = none →
      Protocol.handleRequest handlers request =
        { id := request.id, result := none,
          error := some { code := -32601,
                          message := "Method not found: " ++ request.method,
                          data := none },
          jsonrpc := jsonRpcVersionDefault }) ∧
    (∀ f e, handlers request.method = some f →
      f (effectiveParams request.params) = .error e →
      Protocol.handleRequest handlers request =
        { id := request.id, result := none,
          error := some { code := -32603, message := e, data := none },
          jsonrpc := jsonRpcVersionDefault }) ∧
    (∀ f v, handlers request.method = some f →
      f (effectiveParams request.params) = .ok v →
      Protocol.handleRequest handlers request =
        { id := request.id, result := some v, error := none,
          jsonrpc := jsonRpcVersionDefault }) := by
  refine ⟨?_, ?_, ?_, ?_⟩
  · cases hh : handlers request.method with
    | none => simp [Protocol.handleRequest, hh]
    | some f =>
      cases hf : f (effectiveParams request.params) with
      | error e => simp [Protocol.handleRequest, typedHandle, hh, hf]
      | ok v => simp [Protocol.handleRequest, typedHandle, hh, hf]
  · intro hh
    simp [Protocol.handleRequest, hh, ErrorCode.toInt]
  · intro f e hh hf
    simp [Protocol.handleRequest, typedHandle, hh, hf, ErrorCode.toInt]
  · intro f v hh hf
    simp [Protocol.handleRequest, typedHandle, hh, hf]

/-- C2 witness: concrete dispatches exercising all three outcomes. -/
theorem claim_C2_handle_request_total_witness :
    Protocol.handleRequest (fun _ => none)
      { id := 7, method := "missing", params := none, jsonrpc := "2.0" } =
      { id := 7, result := none,
        error := some { code := -32601, message := "Method not found: missing",
                        data := none },
        jsonrpc := jsonRpcVersionDefault } ∧
    Protocol.handleRequest (fun _ => some (fun _ => Except.error "boom"))
      { id := 8, method := "m", params := none, jsonrpc := "2.0" } =
      { id := 8, result := none,
        error := some { code := -32603, message := "boom", data := none },
        jsonrpc := jsonRpcVersionDefault } ∧
    Protocol.handleRequest (fun _ => some (fun _ => Except.ok Json.null))
      { id := 9, method := "m", params := none, jsonrpc := "2.0" } =
      { id := 9, result := some Json.null, error := none,
        jsonrpc := jsonRpcVersionDefault } :=
  ⟨(claim_C2_handle_request_total (fun _ => none)
      { id := 7, method := "missing", params := none, jsonrpc := "2.0" }).2.1 rfl,
   (claim_C2_handle_request_total (fun _ => some (fun _ => Except.error "boom"))
      { id := 8, method := "m", params := none, jsonrpc := "2.0" }).2.2.1
      (fun _ => Except.error "boom") "boom" rfl rfl,
   (claim_C2_handle_request_total (fun _ => some (fun _ => Except.ok Json.null))
      { id := 9, method := "m", params := none, jsonrpc := "2.0" }).2.2.2
      (fun _ => Except.ok Json.null) Json.null rfl rfl⟩

/-- C4: a client-side request with `RequestOptions.timeout = d` to which no
response is ever delivered resolves at time `d` (so after at least `d`), with
the synthetic response of code -2 (`RequestTimeout`) and message
`"Request timed out"` carrying the request id, and the pending entry for the
id is gone from the table afterwards. -/
theorem claim_C4_timeout (options : RequestOptions) (p : Protocol) (id : Nat) :
    options.timeout ≤ (transportRequestAwait options .never p id).1 ∧
    (transportRequestAwait options .never p id).2.1 =
      { id := id, result := none,
        error := some { code := -2, message := "Request timed out", data := none },
        jsonrpc := jsonRpcVersionDefault } ∧
    lookupPending (transportRequestAwait options .never p id).2.2.pending id = none := by
  refine ⟨le_rfl, rfl, ?_⟩
  exact lookupPending_cancelResponse p id

/-- C7: from a freshly built protocol, outbound ids start at 0, each
allocation advances the shared 64-bit counter by one (mod 2^64), and within
the counter range the id sequence is strictly increasing and repeat-free. -/
theorem claim_C7_id_monotonic :
    outboundId 0 = 0 ∧
    (∀ n, (iterCreate (n + 1)).requestId =
      ((iterCreate n).requestId + 1) % 2 ^ 64) ∧
    (∀ i j, i < j → j < 2 ^ 64 → outboundId i < outboundId j) ∧
    (∀ i j, i < 2 ^ 64 → j < 2 ^ 64 → outboundId i = outboundId j → i = j) := by
  have hiter : ∀ n, (iterCreate n).requestId = n % 2 ^ 64 := by
    intro n
    induction n with
    | zero => simp [iterCreate, Protocol.build]
    | succ n ih =>
      show ((iterCreate n).createRequest.2).requestId = (n + 1) % 2 ^ 64
      simp only [Protocol.createRequest, Protocol.newMessageId]
      rw [ih]
      exact Nat.mod_add_mod n (2 ^ 64) 1
  have hout : ∀ n, outboundId n = n % 2 ^ 64 := by
    intro n
    show ((iterCreate n).createRequest.1) = n % 2 ^ 64
    simp only [Protocol.createRequest, Protocol.newMessageId]
    exact hiter n
  refine ⟨by simp [hout], ?_, ?_, ?_⟩
  · intro n
    rw [hiter (n + 1), hiter n]
    exact (Nat.mod_add_mod n (2 ^ 64) 1).symm
  · intro i j hij hj
    rw [hout i, hout j, Nat.mod_eq_of_lt (lt_trans hij hj), Nat.mod_eq_of_lt hj]
    exact hij
  · intro i j hi hj heq
    rw [hout i, hout j, Nat.mod_eq_of_lt hi, Nat.mod_eq_of_lt hj] at heq
    exact heq

/-- C7 witness: the first three outbound ids are 0, 1, 2, and the
monotonicity instance 0 < 1 at ids 0 and 1. -/
theorem claim_C7_id_monotonic_witness :
    outboundId 0 = 0 ∧ outboundId 1 = 1 ∧ outboundId 2 = 2 ∧
    outboundId 0 < outboundId 1 := by
  refine ⟨rfl, rfl, rfl, ?_⟩
  exact claim_C7_id_monotonic.2.2.1 0 1 (by decide) (by decide)

/-- C8: `Client::initialize` sends the configured protocol version string,
capabilities and client info; a response whose protocol version differs is
rejected with an error, nothing is cached and no `notifications/initialized`
is sent; a matching response is cached in full, the notification is sent, and
the response is returned. -/
theorem claim_C8_client_handshake (pv : ProtocolVersion)
    (caps : ClientCapabilities) (info : Implementation)
    (serverResponse : InitializeResponse) :
    (clientInitialize pv caps info serverResponse).requestSent =
      { protocolVersion := pv.asStr, capabilities := caps, clientInfo := info } ∧
    (serverResponse.protocolVersion ≠ pv.asStr →
      (clientInitialize pv caps info serverResponse).result =
        .error ("Unsupported protocol version: " ++ serverResponse.protocolVersion) ∧
      (clientInitialize pv caps info serverResponse).cached = none ∧
      (clientInitialize pv caps info serverResponse).initializedNotificationSent = false) ∧
    (serverResponse.protocolVersion = pv.asStr →
      (clientInitialize pv caps info serverResponse).result = .ok serverResponse ∧
      (clientInitialize pv caps info serverResponse).cached = some serverResponse ∧
      (clientInitialize pv caps info serverResponse).initializedNotificationSent = true) := by
  refine ⟨?_, ?_, ?_⟩
  · unfold clientInitialize
    split <;> rfl
  · intro hne
    unfold clientInitialize
    rw [if_pos hne]
    exact ⟨rfl, rfl, rfl⟩
  · intro heq
    unfold clientInitialize
    rw [if_neg (by simp [heq])]
    exact ⟨rfl, rfl, rfl⟩

/-- C8 witness: a matching and a mismatching handshake at concrete values. -/
theorem claim_C8_client_handshake_witness :
    (clientInitialize .v2024_11_05 ClientCapabilities.default
        { name := "c", version := "1" }
        { protocolVersion := "2024-11-05", capabilities := ServerCapabilities.default,
          serverInfo := { name := "s", version := "1" }, instructions := none }).cached =
      some { protocolVersion := "2024-11-05", capabilities := ServerCapabilities.default,
             serverInfo := { name := "s", version := "1" }, instructions := none } ∧
    (clientInitialize .v2024_11_05 ClientCapabilities.default
        { name := "c", version := "1" }
        { protocolVersion := "2025-03-26", capabilities := ServerCapabilities.default,
          serverInfo := { name := "s", version := "1" }, instructions := none }).cached =
      none := by
  constructor
  · exact ((claim_C8_client_handshake .v2024_11_05 ClientCapabilities.default
      { name := "c", version := "1" } _).2.2 (by decide)).2.1
  · exact ((claim_C8_client_handshake .v2024_11_05 ClientCapabilities.default
      { name := "c", version := "1" } _).2.1 (by decide)).2.1

/-- C9: the secure-value substitutor is idempotent: with the process
environment and the configuration held fixed, applying it twice equals
applying it once, for every JSON value. -/
theorem claim_C9_secure_idempotent (procEnv : String → Option String)
    (secureValues : String → Option SecureValue) (v : Json) :
    applySecureReplacements procEnv secureValues
        (applySecureReplacements procEnv secureValues v) =
      applySecureReplacements procEnv secureValues v :=
  applySecureReplacements_idem_bounded procEnv secureValues (sizeOf v) v le_rfl

/-- C10: when the arguments value of `Client::call_tool`, after secure-value
substitution, is not a JSON object (so it cannot deserialize into a
string-keyed map), the call still goes through: the sent `tools/call` request
carries the empty arguments map. -/
theorem claim_C10_arguments_coercion (procEnv : String → Option String)
    (env : Option (String → Option SecureValue)) (name : String) (v w : Json)
    (hsub : callToolSubstitutedArguments procEnv env (some v) = some w)
    (hnotobj : jsonToStringMap w = none) :
    callToolRequestSent procEnv env name (some v) =
      { name := name, arguments := some [], meta := none } := by
  unfold callToolRequestSent callToolPreparedArguments
  rw [hsub]
  simp [hnotobj]

/-- C10 witness: with no secure-value configuration and numeric arguments,
the sent request carries the empty arguments map. -/
theorem claim_C10_arguments_coercion_witness :
    callToolSubstitutedArguments (fun _ => none) none (some (.num 3)) = some (.num 3) ∧
    jsonToStringMap (.num 3) = none ∧
    callToolRequestSent (fun _ => none) none "t" (some (.num 3)) =
      { name := "t", arguments := some [], meta := none } := by
  refine ⟨rfl, rfl, ?_⟩
  exact claim_C10_arguments_coercion (fun _ => none) none "t" (.num 3) (.num 3) rfl rfl

end Mcp
